import Mathlib

/-!
Verification development for the ACME RF-communications simulator.

This file gives a shallow embedding of the simulator's core
(`EmissionObj.py`, `Platform.py`, `CommsPlatform.py`, `DisruptorPlatform.py`,
`CommsCoordinator.py`, `Environment.py`) as executable Lean definitions, and
proves properties of the per-step simulation engine against it.

Modelling conventions:
* Python floats (times, payloads, positions) are modelled as exact rationals.
* Python exceptions (`ValueError`, assertion failures) are modelled with
  `Except String`.
* `random.sample` in `DisruptorPlatform.getDisruptions` is modelled by an
  explicit `sample : List Nat` argument (the list of chosen bin indices);
  theorems that depend on it hypothesise the properties `random.sample`
  guarantees (right length, no duplicates, indices in range).
* Python's `queue.Queue` is a bounded FIFO; it is modelled as a `List` whose
  head is the front of the queue, with an explicit capacity field.
* The Python code mutates shared `EmissionObj`s in place (bin assignment by
  the coordinator, `emissionTime` stamping by the environment).  The pure
  model performs each of these single writes before the object becomes
  reachable from any other container, which yields the same observable
  contents everywhere (each emission enters the bins grid at most once and is
  stamped exactly once, before any reader consumes it).
-/

namespace ACME

/-- 3-component kinematic vector (position / velocity / acceleration). -/
structure Vec3 where
  x : ℚ
  y : ℚ
  z : ℚ
deriving DecidableEq, Repr

def Vec3.zero : Vec3 := ⟨0, 0, 0⟩

instance : Inhabited Vec3 := ⟨Vec3.zero⟩

/-- One step of the constant-acceleration kinematic update from
`Platform.step`: `p' = p + v dt + a dt^2 / 2`, `v' = v + a dt`, `a' = a`. -/
def kinUpdate (p v a : Vec3) (dt : ℚ) : Vec3 × Vec3 :=
  (⟨p.x + v.x * dt + a.x * dt ^ 2 / 2,
    p.y + v.y * dt + a.y * dt ^ 2 / 2,
    p.z + v.z * dt + a.z * dt ^ 2 / 2⟩,
   ⟨v.x + a.x * dt, v.y + a.y * dt, v.z + a.z * dt⟩)

/-- The common header fields of `EmissionObj` (`EmissionObj.py`):
source id, destination id list, creation time, emission time (set by the
`Environment` when the object is placed on the medium; `none` until then),
frequency bin (initialised to 0), and position (set at placement). -/
structure Header where
  sourceID : Nat
  destID : List Nat
  time : ℚ
  emissionTime : Option ℚ
  freqBin : Nat
  position : Option Vec3
deriving DecidableEq, Repr

/-- The three emission variants of `EmissionObj.py`: `Packet` (user payload
plus message id), `AckPacket` (payload is the acknowledged message id), and
`DisruptionToken` (header only). -/
inductive Emission where
  | packet (h : Header) (payload : ℚ) (msgID : Nat)
  | ack (h : Header) (ackedMsgID : Nat) (msgID : Nat)
  | token (h : Header)
deriving DecidableEq, Repr

instance : Inhabited Emission := ⟨.token ⟨0, [], 0, none, 0, none⟩⟩

namespace Emission

def header : Emission → Header
  | .packet h _ _ => h
  | .ack h _ _ => h
  | .token h => h

/-- `EmissionObj.sourceType`: 0 for a `CommsPlatform` source (`Packet` and
`AckPacket`), 1 for a `DisruptorPlatform` source (`DisruptionToken`). -/
def sourceType : Emission → Nat
  | .packet _ _ _ => 0
  | .ack _ _ _ => 0
  | .token _ => 1

def sourceID (e : Emission) : Nat := e.header.sourceID

def destID (e : Emission) : List Nat := e.header.destID

def emissionTime (e : Emission) : Option ℚ := e.header.emissionTime

def withHeader : Emission → Header → Emission
  | .packet _ p m, h => .packet h p m
  | .ack _ a m, h => .ack h a m
  | .token _, h => .token h

/-- The `Environment` stamping `emissionObj.emissionTime = self.elapsedTime`. -/
def setEmissionTime (e : Emission) (t : ℚ) : Emission :=
  e.withHeader { e.header with emissionTime := some t }

/-- The `CommsCoordinator` assigning `packet.freqBin = binIndex` and
`packet.position = platform.pos`. -/
def setBinPos (e : Emission) (b : Nat) (p : Option Vec3) : Emission :=
  e.withHeader { e.header with freqBin := b, position := p }

def isToken : Emission → Bool
  | .token _ => true
  | _ => false

def isAck : Emission → Bool
  | .ack _ _ _ => true
  | _ => false

/-- A plain data `Packet` (not an `AckPacket`, not a `DisruptionToken`). -/
def isPlainPacket : Emission → Bool
  | .packet _ _ _ => true
  | _ => false

/-- The user payload of a plain packet (0 otherwise; `putData` only reads the
payload of plain packets). -/
def payload : Emission → ℚ
  | .packet _ p _ => p
  | .ack _ a _ => (a : ℚ)
  | .token _ => 0

def msgID : Emission → Nat
  | .packet _ _ m => m
  | .ack _ _ m => m
  | .token _ => 0

end Emission

/-- `CommsPlatform` state (`CommsPlatform.py` plus the `Platform.py` base
class).  `txQueue` and `rxQueue` are bounded FIFOs of capacity `maxSize`;
the `rxQueue` stores the payloads put there by `putData`. -/
structure CommsPlatform where
  id : Nat
  pos : Vec3
  vel : Vec3
  acc : Vec3
  elapsedTime : ℚ
  elapsedTimeSteps : Nat
  maxSize : Nat
  txQueue : List Emission
  rxQueue : List ℚ
  doAck : Bool
  destIDs : List Nat
  currentMsgID : Nat
deriving DecidableEq, Repr

namespace CommsPlatform

/-- `CommsPlatform.__init__` (checks `theMaxSize >= 1`, raising `ValueError`
otherwise; message ids start at 1). -/
def init (theID : Nat) (theMaxSize : Nat := 100) (theDoAck : Bool := true)
    (initialPos : Vec3 := Vec3.zero) (initialVel : Vec3 := Vec3.zero)
    (initialAcc : Vec3 := Vec3.zero) : Except String CommsPlatform :=
  if theMaxSize < 1 then
    .error "Maximum transmit queue size must be greater than zero."
  else
    .ok { id := theID, pos := initialPos, vel := initialVel, acc := initialAcc,
          elapsedTime := 0, elapsedTimeSteps := 0, maxSize := theMaxSize,
          txQueue := [], rxQueue := [], doAck := theDoAck, destIDs := [],
          currentMsgID := 1 }

instance : Inhabited CommsPlatform :=
  ⟨{ id := 0, pos := Vec3.zero, vel := Vec3.zero, acc := Vec3.zero,
     elapsedTime := 0, elapsedTimeSteps := 0, maxSize := 100,
     txQueue := [], rxQueue := [], doAck := true, destIDs := [],
     currentMsgID := 1 }⟩

/-- `Platform.step`: kinematic update plus elapsed time/step counters. -/
def stepKin (p : CommsPlatform) (dt : ℚ) : CommsPlatform :=
  let (pos, vel) := kinUpdate p.pos p.vel p.acc dt
  { p with pos := pos, vel := vel,
           elapsedTime := p.elapsedTime + dt,
           elapsedTimeSteps := p.elapsedTimeSteps + 1 }

/-- `CommsPlatform.__txPacket`: append to the transmit queue, dropping the
packet (with a warning) when the queue is full. -/
def txPacket (p : CommsPlatform) (e : Emission) : CommsPlatform :=
  if p.maxSize ≤ p.txQueue.length then p
  else { p with txQueue := p.txQueue ++ [e] }

/-- `CommsPlatform.txData`: build a `Packet` with the next message id and the
(deep-copied) payload, and append it to the transmit queue. -/
def txData (p : CommsPlatform) (thePayload : ℚ) (theDestID : List Nat) :
    CommsPlatform :=
  let theMsgID := p.currentMsgID
  let p := { p with currentMsgID := p.currentMsgID + 1 }
  p.txPacket (.packet ⟨p.id, theDestID, p.elapsedTime, none, 0, none⟩
    thePayload theMsgID)

/-- `CommsPlatform.rxData`: pop the head of the receive queue (returning
`none` when empty) together with the updated platform. -/
def rxData (p : CommsPlatform) : Option ℚ × CommsPlatform :=
  match p.rxQueue with
  | [] => (none, p)
  | x :: rest => (some x, { p with rxQueue := rest })

/-- `CommsPlatform.getData`: pop the head of the transmit queue (returning
`none` when empty) together with the updated platform. -/
def getData (p : CommsPlatform) : Option Emission × CommsPlatform :=
  match p.txQueue with
  | [] => (none, p)
  | e :: rest => (some e, { p with txQueue := rest })

/-- The body of the second loop of `CommsPlatform.putData`: acknowledgement
packets are skipped; plain packets have their payload appended to the receive
queue unless it is full (warning, drop), and when `doAck` is set a fresh
`AckPacket` (consuming the next message id) is appended to the transmit
queue.  The `token` case cannot be reached from `putData` (the disruption
check returns first); it is a skip like the `ack` case. -/
def putDataLoop (p : CommsPlatform) : List Emission → CommsPlatform
  | [] => p
  | e :: rest =>
    match e with
    | .ack _ _ _ => p.putDataLoop rest
    | .token _ => p.putDataLoop rest
    | .packet h _ theMsgID =>
      if p.maxSize ≤ p.rxQueue.length then
        p.putDataLoop rest
      else
        let p1 := { p with rxQueue := p.rxQueue ++ [e.payload] }
        let p2 :=
          if p1.doAck then
            let ackID := p1.currentMsgID
            let p1 := { p1 with currentMsgID := p1.currentMsgID + 1 }
            p1.txPacket (.ack ⟨p1.id, [h.sourceID], p1.elapsedTime, none, 0, none⟩
              theMsgID ackID)
          else p1
        p2.putDataLoop rest

/-- `CommsPlatform.putData`: if any element of the batch is a
`DisruptionToken` the whole batch is discarded (the platform is returned
unchanged); otherwise the batch is processed by `putDataLoop`. -/
def putData (p : CommsPlatform) (theEmissionList : List Emission) :
    CommsPlatform :=
  if theEmissionList.any Emission.isToken then p
  else p.putDataLoop theEmissionList

end CommsPlatform

/-- The bins grid: one row per coordinator (exactly one in the current code)
followed by one row per disruptor, each row `numFrequencyBins` cells, each
cell `none` or one `Emission` (`Environment.data`). -/
abbrev Grid := List (List (Option Emission))

/-- `DisruptorPlatform` state (`DisruptorPlatform.py` plus base class).
`numTokensRemaining` is a Python `int`, modelled as `ℤ` so that its
non-negativity is a provable invariant rather than a typing artefact. -/
structure DisruptorPlatform where
  id : Nat
  pos : Vec3
  vel : Vec3
  acc : Vec3
  elapsedTime : ℚ
  elapsedTimeSteps : Nat
  numMaxTokens : ℤ
  numFrequencyBins : Nat
  numTimeStepsPerEpoch : Nat
  numTokensRemaining : ℤ
  commsDestIDs : List Nat
  env : Option Grid
deriving DecidableEq, Repr

namespace DisruptorPlatform

/-- `DisruptorPlatform.__init__` with its `ValueError` checks
(`numMaxTokens >= 0`, `numFrequencyBins >= 1`, `numTimeStepsPerEpoch >= 1`);
the token budget starts at `numMaxTokens`. -/
def init (theID : Nat) (theNumMaxTokens : ℤ := 10)
    (theNumFrequencyBins : Nat := 10) (theNumTimeStepsPerEpoch : Nat := 10)
    (initialPos : Vec3 := Vec3.zero) (initialVel : Vec3 := Vec3.zero)
    (initialAcc : Vec3 := Vec3.zero) : Except String DisruptorPlatform :=
  if theNumMaxTokens < 0 then
    .error "Number of disruption tokens must be non-negative integer."
  else if theNumFrequencyBins < 1 then
    .error "Number of frequency bins must be an integer greater than zero."
  else if theNumTimeStepsPerEpoch < 1 then
    .error "Number of time steps per epoch must be an integer greater than zero."
  else
    .ok { id := theID, pos := initialPos, vel := initialVel, acc := initialAcc,
          elapsedTime := 0, elapsedTimeSteps := 0,
          numMaxTokens := theNumMaxTokens,
          numFrequencyBins := theNumFrequencyBins,
          numTimeStepsPerEpoch := theNumTimeStepsPerEpoch,
          numTokensRemaining := theNumMaxTokens,
          commsDestIDs := [], env := none }

instance : Inhabited DisruptorPlatform :=
  ⟨{ id := 0, pos := Vec3.zero, vel := Vec3.zero, acc := Vec3.zero,
     elapsedTime := 0, elapsedTimeSteps := 0, numMaxTokens := 10,
     numFrequencyBins := 10, numTimeStepsPerEpoch := 10,
     numTokensRemaining := 10, commsDestIDs := [], env := none }⟩

/-- `DisruptorPlatform.step`: the base-class kinematic/time update, then a
token-budget reset to `numMaxTokens` when the (just incremented) step count
is a multiple of `numTimeStepsPerEpoch`. -/
def step (d : DisruptorPlatform) (dt : ℚ) : DisruptorPlatform :=
  let (pos, vel) := kinUpdate d.pos d.vel d.acc dt
  let d := { d with pos := pos, vel := vel,
                    elapsedTime := d.elapsedTime + dt,
                    elapsedTimeSteps := d.elapsedTimeSteps + 1 }
  if d.elapsedTimeSteps % d.numTimeStepsPerEpoch == 0 then
    { d with numTokensRemaining := d.numMaxTokens }
  else d

/-- The number of tokens `getDisruptions` uses this step:
`min(numTokensRemaining, 1)`, then clamped down to `numFrequencyBins`. -/
def numTokensToUse (d : DisruptorPlatform) : ℤ :=
  let n := min d.numTokensRemaining 1
  if (d.numFrequencyBins : ℤ) < n then (d.numFrequencyBins : ℤ) else n

/-- Filling the chosen bins with fresh `DisruptionToken`s (the loop
`for i in index: tokens[i] = DisruptionToken(...)` of `getDisruptions`). -/
def placeTokens (d : DisruptorPlatform) (sample : List Nat) :
    List (Option Emission) :=
  sample.foldl
    (fun tokens i =>
      tokens.set i
        (some (.token ⟨d.id, d.commsDestIDs, d.elapsedTime, none, i, some d.pos⟩)))
    (List.replicate d.numFrequencyBins none)

/-- `DisruptorPlatform.getDisruptions`, with `random.sample(range(B), n)`
modelled by the `sample` argument: decrement the token budget by
`numTokensToUse` and return the bin vector with the chosen bins filled. -/
def getDisruptions (d : DisruptorPlatform) (sample : List Nat) :
    List (Option Emission) × DisruptorPlatform :=
  let n := d.numTokensToUse
  (placeTokens d sample,
   { d with numTokensRemaining := d.numTokensRemaining - n })

/-- The properties `random.sample(range(d.numFrequencyBins), numTokensToUse)`
guarantees for the list of chosen bins. -/
def ValidSample (d : DisruptorPlatform) (sample : List Nat) : Prop :=
  (sample.length : ℤ) = d.numTokensToUse ∧ sample.Nodup ∧
    ∀ i ∈ sample, i < d.numFrequencyBins

instance (d : DisruptorPlatform) (sample : List Nat) :
    Decidable (d.ValidSample sample) :=
  decidable_of_iff ((sample.length : ℤ) = d.numTokensToUse ∧ sample.Nodup ∧
    ∀ i ∈ sample, i < d.numFrequencyBins) Iff.rfl

end DisruptorPlatform

/-- `CommsCoordinator` state (`CommsCoordinator.py`).  The Python object
aliases the platform tuple owned by the `Environment`; the pure model keeps
only the captured id list here and threads the platform list through
`step`. -/
structure CommsCoordinator where
  platformIDs : List Nat
  numFrequencyBins : Nat
  mac : String
  tdmaIndex : Nat
deriving DecidableEq, Repr

namespace CommsCoordinator

/-- `CommsCoordinator.__init__`: captures the platform ids and checks only
`numFrequencyBins >= 1` (`ValueError` otherwise).  The MAC string is stored
without validation. -/
def init (thePlatformIDs : List Nat) (theNumFrequencyBins : Nat)
    (theMediumAccessMethod : String) : Except String CommsCoordinator :=
  if theNumFrequencyBins < 1 then
    .error "Number of frequency bins must be an integer greater than zero."
  else
    .ok { platformIDs := thePlatformIDs,
          numFrequencyBins := theNumFrequencyBins,
          mac := theMediumAccessMethod, tdmaIndex := 0 }

/-- The loop of `CommsCoordinator.__stepRoundRobin`: visit the platforms in
order, pop the head of each transmit queue, place each popped packet at the
next unfilled bin, and stop once all bins are filled. -/
def rrLoop (numBins : Nat) :
    List CommsPlatform → Nat → List (Option Emission) →
      List (Option Emission) × List CommsPlatform
  | [], _, tx => (tx, [])
  | p :: rest, index, tx =>
    if index == numBins then (tx, p :: rest)
    else
      match p.getData with
      | (none, p') =>
        let (tx', rest') := rrLoop numBins rest index tx
        (tx', p' :: rest')
      | (some e, p') =>
        let (tx', rest') := rrLoop numBins rest (index + 1) (tx.set index (some e))
        (tx', p' :: rest')

/-- `CommsCoordinator.__stepRoundRobin`. -/
def stepRoundRobin (c : CommsCoordinator) (ps : List CommsPlatform) :
    List (Option Emission) × List CommsPlatform :=
  rrLoop c.numFrequencyBins ps 0 (List.replicate c.numFrequencyBins none)

/-- `CommsCoordinator.__stepTDMA`: requires exactly one frequency bin
(`ValueError` otherwise); drains only `platforms[tdmaIndex]` and advances
`tdmaIndex` cyclically.  Indexing an empty platform tuple is a Python
`IndexError`, modelled as an error value. -/
def stepTDMA (c : CommsCoordinator) (ps : List CommsPlatform) :
    Except String (List (Option Emission) × List CommsPlatform × CommsCoordinator) :=
  if c.numFrequencyBins ≠ 1 then
    .error "When using TDMA, only one frequency bin can exist."
  else
    match ps.get? c.tdmaIndex with
    | none => .error "tuple index out of range"
    | some p =>
      let (e, p') := p.getData
      let nextIndex := if c.tdmaIndex + 1 == ps.length then 0 else c.tdmaIndex + 1
      .ok ([e], ps.set c.tdmaIndex p', { c with tdmaIndex := nextIndex })

/-- `CommsCoordinator.__stepFDMA`: requires at least as many bins as
platforms (`ValueError` otherwise); platform `i` transmits on bin `i`. -/
def stepFDMA (c : CommsCoordinator) (ps : List CommsPlatform) :
    Except String (List (Option Emission) × List CommsPlatform) :=
  if c.numFrequencyBins < ps.length then
    .error "When using FDMA, the number of frequency bins must be at least the number of platforms."
  else
    .ok (ps.map (fun p => p.getData.1) ++
           List.replicate (c.numFrequencyBins - ps.length) none,
         ps.map (fun p => p.getData.2))

/-- The post-processing loop of `CommsCoordinator.step`: every filled bin's
emission gets `freqBin` set to its bin index and `position` set to the
current position of its source platform. -/
def decorateRow (c : CommsCoordinator) (ps : List CommsPlatform)
    (row : List (Option Emission)) : List (Option Emission) :=
  row.mapIdx (fun binIndex cell =>
    match cell with
    | none => none
    | some e =>
      let platformIndex := c.platformIDs.indexOf e.sourceID
      match ps.get? platformIndex with
      | some p => some (e.setBinPos binIndex (some p.pos))
      | none => some (e.setBinPos binIndex none))

/-- `CommsCoordinator.step`: dispatch on the MAC string with the `if` /
`elif` chain of the source (an unrecognized name raises `ValueError`),
then decorate the filled bins. -/
def step (c : CommsCoordinator) (ps : List CommsPlatform) :
    Except String (List (Option Emission) × List CommsPlatform × CommsCoordinator) :=
  if c.mac = "rr" then
    let (row, ps') := c.stepRoundRobin ps
    .ok (c.decorateRow ps' row, ps', c)
  else if c.mac = "tdma" then
    match c.stepTDMA ps with
    | .error msg => .error msg
    | .ok (row, ps', c') => .ok (c.decorateRow ps' row, ps', c')
  else if c.mac = "fdma" then
    match c.stepFDMA ps with
    | .error msg => .error msg
    | .ok (row, ps') => .ok (c.decorateRow ps' row, ps', c)
  else .error "Invalid medium access control method"

end CommsCoordinator

/-- Adjacency matrix lookup `adjMatrix[i, j]` (row = source, column =
destination).  The shape invariant of `Environment.__init__` keeps all
accesses in range; out-of-range defaults are `false`. -/
def adjGet (adj : List (List Bool)) (i j : Nat) : Bool :=
  (adj.getD i []).getD j false

/-- The per-ordered-pair traffic logs `__trafficTx` / `__trafficRx`:
a `C × C` matrix of packet lists. -/
abbrev TrafficMatrix := List (List (List Emission))

/-- Entry `(s, d)` of a traffic-log matrix. -/
def get2 (m : TrafficMatrix) (s d : Nat) : List Emission :=
  (m.getD s []).getD d []

/-- Update entry `(s, d)` of a traffic-log matrix in place. -/
def upd2 (m : TrafficMatrix) (s d : Nat) (f : List Emission → List Emission) :
    TrafficMatrix :=
  m.set s ((m.getD s []).set d (f (get2 m s d)))

/-- Update entry `i` of the per-destination outbound batches. -/
def upd1 (xs : List (List Emission)) (i : Nat)
    (f : List Emission → List Emission) : List (List Emission) :=
  xs.set i (f (xs.getD i []))

/-- The state threaded through the fan-out loop of `Environment.step`:
the per-destination outbound batches `txData` and the attempt log
`__trafficTx`. -/
structure FanState where
  txData : List (List Emission)
  trafficTx : TrafficMatrix
deriving DecidableEq, Repr

/-- One iteration of the inner destination loop of the fan-out phase of
`Environment.step`: look up the destination id among the comms ids
(silently skipping unknown ids, the `except: pass`), log sourceType-0
emissions to `trafficTx[src][dst]` unconditionally, and append the emission
to `txData[dst]` when the adjacency matrix allows the link. -/
def fanStep (adj : List (List Bool)) (cIDs dIDs : List Nat) (e : Emission)
    (st : FanState) (destID : Nat) : FanState :=
  match cIDs.indexOf? destID with
  | none => st
  | some dst =>
    if e.sourceType == 0 then
      match cIDs.indexOf? e.sourceID with
      | none => st
      | some src =>
        let st := { st with trafficTx := upd2 st.trafficTx src dst (· ++ [e]) }
        if adjGet adj src dst then
          { st with txData := upd1 st.txData dst (· ++ [e]) }
        else st
    else
      match dIDs.indexOf? e.sourceID with
      | none => st
      | some si =>
        if adjGet adj (cIDs.length + si) dst then
          { st with txData := upd1 st.txData dst (· ++ [e]) }
        else st

/-- The inner destination loop of the fan-out phase of `Environment.step`
for one occupied bin. -/
def fanCell (adj : List (List Bool)) (cIDs dIDs : List Nat) (st : FanState)
    (e : Emission) : FanState :=
  e.destID.foldl (fanStep adj cIDs dIDs e) st

/-- The fan-out phase of `Environment.step`: iterate over every occupied
cell of the bins grid in row-major order. -/
def fanGrid (adj : List (List Bool)) (cIDs dIDs : List Nat) (g : Grid)
    (st : FanState) : FanState :=
  g.foldl
    (fun st row =>
      row.foldl
        (fun st cell =>
          match cell with
          | none => st
          | some e => fanCell adj cIDs dIDs st e)
        st)
    st

/-- One iteration of the success-accounting loop of `Environment.step`:
a comms-sourced emission whose source id resolves is appended to
`trafficRx[src][dst]` unless the batch was disrupted. -/
def rxStep (cIDs : List Nat) (dst : Nat) (isDisrupted : Bool)
    (m : TrafficMatrix) (e : Emission) : TrafficMatrix :=
  if e.sourceType == 0 then
    match cIDs.indexOf? e.sourceID with
    | some src => if isDisrupted then m else upd2 m src dst (· ++ [e])
    | none => m
  else m

/-- The success-accounting phase of `Environment.step` for one recipient:
if the delivered batch contains any disruptor emission the whole batch is
unsuccessful; otherwise each comms-sourced emission is appended to
`trafficRx[src][dst]`. -/
def rxBatch (cIDs : List Nat) (dst : Nat) (batch : List Emission)
    (m : TrafficMatrix) : TrafficMatrix :=
  batch.foldl (rxStep cIDs dst (batch.any (fun e => e.sourceType == 1))) m

/-- The success-accounting phase of `Environment.step` over all
recipients. -/
def rxAccount (cIDs : List Nat) (txData : List (List Emission))
    (m : TrafficMatrix) : TrafficMatrix :=
  (List.range cIDs.length).foldl
    (fun m dst => rxBatch cIDs dst (txData.getD dst []) m) m

/-- The drop condition of the sliding-window pruning loop: the head is
dropped while `elapsedTime - emissionTime > windowSize`.  Every logged
emission is stamped, so the `none` case is unreachable; it does not drop. -/
def pruneDrop (elapsed window : ℚ) (e : Emission) : Bool :=
  match e.emissionTime with
  | some t => window < elapsed - t
  | none => false

/-- The sliding-window pruning of one log list (`while` loop popping the
head; equivalently `dropWhile`). -/
def pruneList (elapsed window : ℚ) (l : List Emission) : List Emission :=
  l.dropWhile (pruneDrop elapsed window)

/-- Sliding-window pruning over every ordered pair of comms platforms. -/
def pruneMatrix (elapsed window : ℚ) (m : TrafficMatrix) : TrafficMatrix :=
  m.map (fun row => row.map (pruneList elapsed window))

/-- The all-empty bins grid. -/
def emptyGrid (rows bins : Nat) : Grid :=
  List.replicate rows (List.replicate bins none)

/-- Stamping `emissionObj.emissionTime = elapsedTime` on every occupied
cell of the grid. -/
def stampGrid (t : ℚ) (g : Grid) : Grid :=
  g.map (fun row => row.map (fun cell => cell.map (fun e => e.setEmissionTime t)))

/-- The per-disruptor filtered copy of a delayed snapshot
(`Environment.step`, "Update disruptors with Environment frequency
allocation status"): in the coordinator row (row 0) a cell survives iff its
comms source is adjacent to disruptor `k`; in the disruptor rows a cell
survives iff its disruptor source is adjacent to disruptor `k`.  The filter
is applied to the disruptor's own cells like any others. -/
def filterForDisruptor (adj : List (List Bool)) (cIDs dIDs : List Nat)
    (k : Nat) (g : Grid) : Grid :=
  g.mapIdx (fun r row =>
    if r == 0 then
      row.map (fun cell => cell.bind (fun e =>
        if adjGet adj (cIDs.indexOf e.sourceID) (cIDs.length + k) then some e
        else none))
    else
      row.map (fun cell => cell.bind (fun e =>
        if adjGet adj (cIDs.length + dIDs.indexOf e.sourceID) (cIDs.length + k)
        then some e else none)))

/-- `Environment` state (`Environment.py`).  `coordinator` is the single
`CommsCoordinator` the constructor builds (the Python field is a
one-element list kept for future extension); `dataQueue` is the
delayed-observation FIFO (head = oldest snapshot). -/
structure Environment where
  commsPlatforms : List CommsPlatform
  disruptorPlatforms : List DisruptorPlatform
  numFrequencyBins : Nat
  disruptorDelay : Nat
  coordinator : CommsCoordinator
  adjMatrix : List (List Bool)
  data : Grid
  dataQueue : List Grid
  windowSize : ℚ
  trafficTx : TrafficMatrix
  trafficRx : TrafficMatrix
  elapsedTime : ℚ
deriving DecidableEq, Repr

namespace Environment

def commsPlatformIDs (env : Environment) : List Nat :=
  env.commsPlatforms.map (·.id)

def disruptorPlatformIDs (env : Environment) : List Nat :=
  env.disruptorPlatforms.map (·.id)

def numCommsPlatforms (env : Environment) : Nat := env.commsPlatforms.length

/-- `Environment.__updatePlatformConnectivity`: recompute each comms
platform's `destIDs` and each disruptor's `commsDestIDs` from the current
adjacency matrix (restricted to the comms block). -/
def updatePlatformConnectivity (env : Environment) : Environment :=
  let C := env.commsPlatforms.length
  let ids := env.commsPlatforms.map (·.id)
  { env with
    commsPlatforms := env.commsPlatforms.mapIdx (fun i p =>
      { p with destIDs := (List.range C).filterMap (fun j =>
          if adjGet env.adjMatrix i j then some (ids.getD j 0) else none) }),
    disruptorPlatforms := env.disruptorPlatforms.mapIdx (fun k d =>
      { d with commsDestIDs := (List.range C).filterMap (fun j =>
          if adjGet env.adjMatrix (C + k) j then some (ids.getD j 0) else none) }) }

/-- `Environment.__init__` with its construction-time checks, in source
order: unique comms ids, unique disruptor ids, adjacency shape,
`numFrequencyBins >= 1`, the coordinator's own constructor, `disruptorDelay
>= 1`, `slidingWindow >= 0`.  The delay queue starts full of empty-grid
snapshots and the traffic logs start empty. -/
def init (theAdjMatrix : List (List Bool))
    (theCommsPlatforms : List CommsPlatform := [])
    (theDisruptorPlatforms : List DisruptorPlatform := [])
    (theNumFrequencyBins : Nat := 10) (theDisruptorDelay : Nat := 1)
    (theMediumAccessMethod : String := "rr") (theSlidingWindow : ℚ := 0) :
    Except String Environment :=
  let C := theCommsPlatforms.length
  let D := theDisruptorPlatforms.length
  if ¬ (theCommsPlatforms.map (·.id)).Nodup then
    .error "Communications platform IDs are not unique!"
  else if ¬ (theDisruptorPlatforms.map (·.id)).Nodup then
    .error "Disruptor platform IDs are not unique!"
  else if ¬ (theAdjMatrix.length = C + D ∧
      theAdjMatrix.all (fun row => row.length == C + D)) then
    .error "Size of adjacency matrix must match number of Comms and Disruptor Platforms provided"
  else if theNumFrequencyBins < 1 then
    .error "Number of frequency bins must be an integer greater than zero."
  else
    match CommsCoordinator.init (theCommsPlatforms.map (·.id))
        theNumFrequencyBins theMediumAccessMethod with
    | .error msg => .error msg
    | .ok coord =>
      if theDisruptorDelay < 1 then
        .error "DisruptorDelay is not a positive integer"
      else if theSlidingWindow < 0 then
        .error "Sliding window size is not a non-negative floating point number"
      else
        let g := emptyGrid (1 + D) theNumFrequencyBins
        let env : Environment :=
          { commsPlatforms := theCommsPlatforms,
            disruptorPlatforms := theDisruptorPlatforms,
            numFrequencyBins := theNumFrequencyBins,
            disruptorDelay := theDisruptorDelay,
            coordinator := coord,
            adjMatrix := theAdjMatrix,
            data := g,
            dataQueue := List.replicate theDisruptorDelay g,
            windowSize := theSlidingWindow,
            trafficTx := List.replicate C (List.replicate C []),
            trafficRx := List.replicate C (List.replicate C []),
            elapsedTime := 0 }
        .ok env.updatePlatformConnectivity

/-- `Environment.trafficStatistics`: entry `(s, d)` is
`|rx_log[s][d]| / |tx_log[s][d]|` when `tx_log[s][d]` is non-empty,
else `0.0`. -/
def trafficStatistics (env : Environment) : List (List ℚ) :=
  (List.range env.numCommsPlatforms).map (fun s =>
    (List.range env.numCommsPlatforms).map (fun d =>
      if (get2 env.trafficTx s d).length ≠ 0 then
        ((get2 env.trafficRx s d).length : ℚ) / ((get2 env.trafficTx s d).length : ℚ)
      else 0))

/-- Phase 1 of `Environment.step`: kinematics of every platform. -/
def phaseKinematics (env : Environment) (dt : ℚ) : Environment :=
  { env with
    commsPlatforms := env.commsPlatforms.map (·.stepKin dt),
    disruptorPlatforms := env.disruptorPlatforms.map (·.step dt) }

/-- Phase 5 of `Environment.step`: assign each disruptor its filtered copy
of the popped snapshot. -/
def observeFor (env : Environment) (theEnv : Grid) : List DisruptorPlatform :=
  env.disruptorPlatforms.mapIdx (fun k d =>
    { d with env := some (filterForDisruptor env.adjMatrix
        env.commsPlatformIDs env.disruptorPlatformIDs k theEnv) })

/-- Phases 1-3 of `Environment.step`: kinematics, connectivity refresh,
elapsed time. -/
def preCoordinator (env : Environment) (dt : ℚ) : Environment :=
  let env := (env.phaseKinematics dt).updatePlatformConnectivity
  { env with elapsedTime := env.elapsedTime + dt }

/-- `Environment.step`, in the canonical phase order: kinematics,
connectivity refresh, elapsed time, coordinator drain, delayed snapshot to
disruptors, disruption collection, snapshot enqueue, fan-out, batch
delivery, success accounting, sliding-window pruning.  `samples` supplies
each disruptor's `random.sample` result (by disruptor index).  The
emission-time stamp of the fan-out phase is applied when the grid is
rebuilt, before any container or reader consumes it (see the module
comment). -/
def postCoordinator (env0 : Environment) (row0 : List (Option Emission))
    (cs : List CommsPlatform) (coord : CommsCoordinator)
    (samples : List (List Nat)) : Environment :=
  let env : Environment := { env0 with commsPlatforms := cs, coordinator := coord }
  let theEnv : Grid := env.dataQueue.headD
    (emptyGrid (1 + env.disruptorPlatforms.length) env.numFrequencyBins)
  let env : Environment :=
    { env with dataQueue := env.dataQueue.tail,
               disruptorPlatforms := env.observeFor theEnv }
  let pairs : List (List (Option Emission) × DisruptorPlatform) :=
    env.disruptorPlatforms.mapIdx
      (fun k (d : DisruptorPlatform) => d.getDisruptions (samples.getD k []))
  let env : Environment := { env with disruptorPlatforms := pairs.map Prod.snd }
  let stamped : Grid := stampGrid env.elapsedTime (row0 :: pairs.map Prod.fst)
  let env : Environment :=
    { env with data := stamped, dataQueue := env.dataQueue ++ [stamped] }
  let C : Nat := env.commsPlatforms.length
  let st : FanState :=
    fanGrid env.adjMatrix env.commsPlatformIDs env.disruptorPlatformIDs
      stamped { txData := List.replicate C [], trafficTx := env.trafficTx }
  let env : Environment := { env with
    commsPlatforms := env.commsPlatforms.mapIdx
      (fun i (p : CommsPlatform) => p.putData (st.txData.getD i [])),
    trafficTx := st.trafficTx }
  let env : Environment := { env with
    trafficRx := rxAccount env.commsPlatformIDs st.txData env.trafficRx }
  if env.windowSize > 0 then
    { env with
      trafficTx := pruneMatrix env.elapsedTime env.windowSize env.trafficTx,
      trafficRx := pruneMatrix env.elapsedTime env.windowSize env.trafficRx }
  else env

/-- `Environment.step` continued: after the coordinator drain, the
remaining phases are `postCoordinator`. -/
def step (env0 : Environment) (dt : ℚ) (samples : List (List Nat)) :
    Except String Environment :=
  let env : Environment := env0.preCoordinator dt
  match env.coordinator.step env.commsPlatforms with
  | .error msg => .error msg
  | .ok (row0, cs, coord) => .ok (env.postCoordinator row0 cs coord samples)

end Environment

/-- A user-or-environment action in a simulation run: the public comms
platform API (`txData` on platform index `i`, `rxData` on platform index
`i`), a user mutation of the adjacency matrix between steps, or one
environment step. -/
inductive Action where
  | txData (i : Nat) (payload : ℚ) (dest : List Nat)
  | rxData (i : Nat)
  | setAdjMatrix (m : List (List Bool))
  | step (dt : ℚ) (samples : List (List Nat))

namespace Environment

/-- Apply one action to the environment. -/
def applyAction (env : Environment) : Action → Except String Environment
  | .txData i payload dest =>
    .ok { env with commsPlatforms :=
      (List.modify (fun p => p.txData payload dest) i env.commsPlatforms) }
  | .rxData i =>
    .ok { env with commsPlatforms :=
      (List.modify (fun p => (p.rxData).2) i env.commsPlatforms) }
  | .setAdjMatrix m => .ok { env with adjMatrix := m }
  | .step dt samples => env.step dt samples

/-- Run a list of actions from a starting environment. -/
def run (env : Environment) : List Action → Except String Environment
  | [] => .ok env
  | a :: rest =>
    match env.applyAction a with
    | .error msg => .error msg
    | .ok env' => env'.run rest

/-- Run a list of actions, also collecting the bins grid as it stands at
the end of each `step` action, in order. -/
def runH (env : Environment) : List Action → Except String (Environment × List Grid)
  | [] => .ok (env, [])
  | a :: rest =>
    match env.applyAction a with
    | .error msg => .error msg
    | .ok env' =>
      match env'.runH rest with
      | .error msg => .error msg
      | .ok (envN, hist) =>
        .ok (envN, (match a with | .step _ _ => [env'.data] | _ => []) ++ hist)

end Environment

/-! ### Specification helpers

Closed-form descriptions used in theorem statements; each is checked
against the embedded code by the lemmas below. -/

/-- The plain data packets of a batch (not acknowledgements, not tokens). -/
def plainPackets (batch : List Emission) : List Emission :=
  batch.filter Emission.isPlainPacket

/-- The acknowledgement packets `putData` builds for a list of received
packets, with message ids counting up from `startID`. -/
def acksFor (selfID : Nat) (t : ℚ) (startID : Nat) :
    List Emission → List Emission
  | [] => []
  | e :: rest =>
    .ack ⟨selfID, [e.sourceID], t, none, 0, none⟩ e.msgID startID ::
      acksFor selfID t (startID + 1) rest

/-! ### Concrete scenario configurations -/

/-- A comms platform built with the constructor defaults
(`maxSize = 100`, `doAck = true`, zero kinematics). -/
def mkCommsPlatform (i : Nat) : CommsPlatform :=
  ((CommsPlatform.init i).toOption).getD default

/-- An all-`True` adjacency matrix. -/
def allTrue (n : Nat) : List (List Bool) :=
  List.replicate n (List.replicate n true)

/-- Scenario of C1: 3 comms platforms with ids 1, 2, 3; all-true adjacency;
no disruptors; `B = 10`; round-robin MAC; `slidingWindow = 0`. -/
def scenario1Env : Except String Environment :=
  Environment.init (allTrue 3)
    [mkCommsPlatform 1, mkCommsPlatform 2, mkCommsPlatform 3] [] 10 1 "rr" 0

/-- Scenario of C1 after `platform1.txData(0.7, [2, 3])` and one
`step(0.25)`. -/
def scenario1Final : Except String Environment :=
  match scenario1Env with
  | .error msg => .error msg
  | .ok env => env.run [.txData 0 (7/10) [2, 3], .step (1/4) []]

instance : Inhabited Environment :=
  ⟨{ commsPlatforms := [], disruptorPlatforms := [], numFrequencyBins := 1,
     disruptorDelay := 1,
     coordinator := { platformIDs := [], numFrequencyBins := 1, mac := "rr",
                      tdmaIndex := 0 },
     adjMatrix := [], data := [], dataQueue := [], windowSize := 0,
     trafficTx := [], trafficRx := [], elapsedTime := 0 }⟩

/-- Scenario of C4: TDMA requested with 2 frequency bins (a MAC-specific
dimensional mismatch). -/
def scenario4TDMA : Except String Environment :=
  Environment.init (allTrue 2) [mkCommsPlatform 1, mkCommsPlatform 2] []
    2 1 "tdma" 0

/-- Scenario of C4: FDMA requested with fewer bins (1) than platforms (2). -/
def scenario4FDMA : Except String Environment :=
  Environment.init (allTrue 2) [mkCommsPlatform 1, mkCommsPlatform 2] []
    1 1 "fdma" 0

/-- Scenario of C4: an unrecognized MAC name. -/
def scenario4Unknown : Except String Environment :=
  Environment.init (allTrue 2) [mkCommsPlatform 1, mkCommsPlatform 2] []
    10 1 "csma" 0

instance : Inhabited CommsCoordinator :=
  ⟨{ platformIDs := [], numFrequencyBins := 1, mac := "rr", tdmaIndex := 0 }⟩

/-- Scenario of C5: 4 platforms, each with exactly one pending packet. -/
def c5platforms : List CommsPlatform :=
  [(mkCommsPlatform 1).txData 1 [9], (mkCommsPlatform 2).txData 2 [9],
   (mkCommsPlatform 3).txData 3 [9], (mkCommsPlatform 4).txData 4 [9]]

/-- Scenario of C5: a round-robin coordinator over `c5platforms` with
`B = 2` frequency bins. -/
def c5coordinator : CommsCoordinator :=
  ((CommsCoordinator.init [1, 2, 3, 4] 2 "rr").toOption).getD default

/-- The result triple of the C5 scenario step. -/
def c5result : List (Option Emission) × List CommsPlatform × CommsCoordinator :=
  ((c5coordinator.step c5platforms).toOption).getD default

/-- Scenario of C6: 2 comms platforms; platform 1 transmits one packet
whose destination list contains id 2 twice. -/
def c6final : Except String Environment :=
  match Environment.init (allTrue 2) [mkCommsPlatform 1, mkCommsPlatform 2]
      [] 2 1 "rr" 0 with
  | .error msg => .error msg
  | .ok env => env.run [.txData 0 (7/10) [2, 2], .step (1/4) []]

/-- Witness disruptor for C8: `maxTokens = 4`, `B = 10`,
`stepsPerEpoch = 10`, built with the constructor. -/
def c8disruptor : DisruptorPlatform :=
  ((DisruptorPlatform.init 1 4 10 10).toOption).getD default

/-- Witness platform for C10: receive queue of capacity 1 that is already
full, `doAck = true`. -/
def c10platform : CommsPlatform :=
  { id := 4, pos := Vec3.zero, vel := Vec3.zero, acc := Vec3.zero,
    elapsedTime := 2, elapsedTimeSteps := 1, maxSize := 1,
    txQueue := [], rxQueue := [1/2], doAck := true, destIDs := [7],
    currentMsgID := 3 }

/-- Witness batch for C10: one plain packet arriving at a full queue. -/
def c10batch : List Emission :=
  [.packet ⟨7, [4], 1, some 2, 0, some Vec3.zero⟩ (9/10) 5]

/-- The source index the fan-out loop computes for an emission: a comms
index for comms-sourced emissions, `C +` a disruptor index otherwise
(`none` when the id lookup fails). -/
def srcIndex (cIDs dIDs : List Nat) (e : Emission) : Option Nat :=
  if e.sourceType == 0 then cIDs.indexOf? e.sourceID
  else (dIDs.indexOf? e.sourceID).map (cIDs.length + ·)

/-- Contribution of one emission to `trafficTx[s][d]` for a given list of
destination ids: one copy per occurrence that resolves to comms index `d`,
when the emission is comms-sourced with source index `s`. -/
def destContribTx (cIDs : List Nat) (e : Emission) (s d : Nat)
    (xs : List Nat) : List Emission :=
  xs.flatMap (fun x =>
    if cIDs.indexOf? x = some d ∧ e.sourceType = 0 ∧
        cIDs.indexOf? e.sourceID = some s then [e] else [])

/-- Contribution of one emission to `trafficTx[s][d]` during fan-out. -/
def contribTx (cIDs : List Nat) (e : Emission) (s d : Nat) : List Emission :=
  destContribTx cIDs e s d e.destID

/-- Contribution of one emission to the outbound batch `txData[d]` for a
given list of destination ids: one copy per occurrence resolving to `d`,
when the source resolves and the adjacency matrix allows the link. -/
def destContribBatch (adj : List (List Bool)) (cIDs dIDs : List Nat)
    (e : Emission) (d : Nat) (xs : List Nat) : List Emission :=
  xs.flatMap (fun x =>
    if cIDs.indexOf? x = some d ∧
        ((srcIndex cIDs dIDs e).any (fun si => adjGet adj si d)) = true
    then [e] else [])

/-- Contribution of one emission to the outbound batch `txData[d]`. -/
def contribBatch (adj : List (List Bool)) (cIDs dIDs : List Nat)
    (e : Emission) (d : Nat) : List Emission :=
  destContribBatch adj cIDs dIDs e d e.destID

/-- Shape of a C-by-C traffic matrix. -/
def TrafficShape (m : TrafficMatrix) (C : Nat) : Prop :=
  m.length = C ∧ ∀ row ∈ m, row.length = C

instance (m : TrafficMatrix) (C : Nat) : Decidable (TrafficShape m C) :=
  decidable_of_iff (m.length = C ∧ ∀ row ∈ m, row.length = C) Iff.rfl

/-- All emissions occupying cells of a grid, in row-major order. -/
def gridEmissions (g : Grid) : List Emission :=
  g.flatMap (fun row => row.filterMap id)

def benignAdj (C : Nat) : Action → Bool
  | .setAdjMatrix m => m == allTrue C
  | _ => true

def NoDisruptorInvariant (env : Environment) : Prop :=
  env.disruptorPlatforms = [] ∧
  env.adjMatrix = allTrue env.numCommsPlatforms ∧
  TrafficShape env.trafficTx env.numCommsPlatforms ∧
  env.trafficRx = env.trafficTx

/-- Concrete run for the statistics-ratio witness: 3 comms platforms, no
disruptors, all-true adjacency, round-robin MAC, one transmission and one
step. -/
def c9env0 : Environment :=
  ((Environment.init (allTrue 3)
    [mkCommsPlatform 1, mkCommsPlatform 2, mkCommsPlatform 3] [] 10 1 "rr"
    0).toOption).getD default

/-- The action list of the statistics-ratio witness run. -/
def c9acts : List Action := [.txData 0 (7/10) [2, 3], .step (1/4) []]

/-- The end state of the statistics-ratio witness run. -/
def c9final : Environment := ((c9env0.run c9acts).toOption).getD default

def StampedSorted (E : ℚ) (l : List Emission) : Prop :=
  (∀ e ∈ l, ∃ t, e.emissionTime = some t ∧ t ≤ E) ∧
  List.Pairwise (fun a b => a.emissionTime.getD 0 ≤ b.emissionTime.getD 0) l

def MatrixOk (E : ℚ) (m : TrafficMatrix) : Prop :=
  ∀ s d, StampedSorted E (get2 m s d)

def MatrixWithin (E w : ℚ) (m : TrafficMatrix) : Prop :=
  ∀ s d, ∀ e ∈ get2 m s d, E - e.emissionTime.getD 0 ≤ w

def WindowInvariant (env : Environment) : Prop :=
  TrafficShape env.trafficTx env.numCommsPlatforms ∧
  TrafficShape env.trafficRx env.numCommsPlatforms ∧
  MatrixOk env.elapsedTime env.trafficTx ∧
  MatrixOk env.elapsedTime env.trafficRx ∧
  (0 < env.windowSize →
    MatrixWithin env.elapsedTime env.windowSize env.trafficTx ∧
    MatrixWithin env.elapsedTime env.windowSize env.trafficRx)

def nonnegSteps : Action → Bool
  | .step dt _ => decide (0 ≤ dt)
  | _ => true

/-- Witness platforms for the sliding-window bound: two comms platforms. -/
def c7wenv0 : Environment :=
  ((Environment.init (allTrue 2) [mkCommsPlatform 1, mkCommsPlatform 2] []
    10 1 "rr" 1).toOption).getD default

/-- The witness run: two steps of one second each with no traffic. -/
def c7wacts : List Action := [.step 1 [], .step 1 []]

/-- End state of the sliding-window witness run. -/
def c7wfinal : Environment := ((c7wenv0.run c7wacts).toOption).getD default

/-- A comms platform with acknowledgements disabled, for the
sliding-window counterexample run. -/
def c7p (i : Nat) : CommsPlatform :=
  ((CommsPlatform.init i 100 false).toOption).getD default

/-- Counterexample platform state: zero kinematics, capacity 100, no
acknowledgements, connectivity `[1, 2]`. -/
def c7plat (i : Nat) (t : ℚ) (steps : Nat) (tq : List Emission)
    (rq : List ℚ) (mid : Nat) : CommsPlatform :=
  { id := i, pos := Vec3.zero, vel := Vec3.zero, acc := Vec3.zero,
    elapsedTime := t, elapsedTimeSteps := steps, maxSize := 100,
    txQueue := tq, rxQueue := rq, doAck := false, destIDs := [1, 2],
    currentMsgID := mid }

def c7pk1 : Emission := .packet ⟨1, [2], 0, none, 0, none⟩ 1 1

def c7pk1s : Emission := .packet ⟨1, [2], 0, some 10, 0, some Vec3.zero⟩ 1 1

def c7pk2 : Emission := .packet ⟨1, [2], 10, none, 0, none⟩ 2 2

def c7pk2s : Emission := .packet ⟨1, [2], 10, some 1, 0, some Vec3.zero⟩ 2 2

/-- The environment of the counterexample run after construction. -/
def c7e0 : Environment :=
  { commsPlatforms := [c7plat 1 0 0 [] [] 1, c7plat 2 0 0 [] [] 1],
    disruptorPlatforms := [], numFrequencyBins := 1, disruptorDelay := 1,
    coordinator := { platformIDs := [1, 2], numFrequencyBins := 1,
                     mac := "rr", tdmaIndex := 0 },
    adjMatrix := allTrue 2, data := [[none]], dataQueue := [[[none]]],
    windowSize := 1,
    trafficTx := [[[], []], [[], []]], trafficRx := [[[], []], [[], []]],
    elapsedTime := 0 }

def c7e1 : Environment :=
  { c7e0 with
    commsPlatforms := [c7plat 1 0 0 [c7pk1] [] 2, c7plat 2 0 0 [] [] 1] }

def c7e2pre : Environment :=
  { c7e0 with
    commsPlatforms := [c7plat 1 10 1 [c7pk1] [] 2, c7plat 2 10 1 [] [] 1],
    elapsedTime := 10 }

def c7pk1b : Emission := .packet ⟨1, [2], 0, none, 0, some Vec3.zero⟩ 1 1

def c7pk2b : Emission := .packet ⟨1, [2], 10, none, 0, some Vec3.zero⟩ 2 2

/-- Counterexample state after `step(10)`. -/
def c7e2 : Environment :=
  { commsPlatforms := [c7plat 1 10 1 [] [] 2, c7plat 2 10 1 [] [1] 1],
    disruptorPlatforms := [], numFrequencyBins := 1, disruptorDelay := 1,
    coordinator := { platformIDs := [1, 2], numFrequencyBins := 1,
                     mac := "rr", tdmaIndex := 0 },
    adjMatrix := allTrue 2, data := [[some c7pk1s]],
    dataQueue := [[[some c7pk1s]]], windowSize := 1,
    trafficTx := [[[], [c7pk1s]], [[], []]],
    trafficRx := [[[], [c7pk1s]], [[], []]],
    elapsedTime := 10 }

def c7e3 : Environment :=
  { c7e2 with
    commsPlatforms := [c7plat 1 10 1 [c7pk2] [] 3, c7plat 2 10 1 [] [1] 1] }

def c7e4pre : Environment :=
  { c7e2 with
    commsPlatforms := [c7plat 1 1 2 [c7pk2] [] 3, c7plat 2 1 2 [] [1] 1],
    elapsedTime := 1 }

/-- Counterexample state after `step(-9)`. -/
def c7e4 : Environment :=
  { commsPlatforms := [c7plat 1 1 2 [] [] 3, c7plat 2 1 2 [] [1, 2] 1],
    disruptorPlatforms := [], numFrequencyBins := 1, disruptorDelay := 1,
    coordinator := { platformIDs := [1, 2], numFrequencyBins := 1,
                     mac := "rr", tdmaIndex := 0 },
    adjMatrix := allTrue 2, data := [[some c7pk2s]],
    dataQueue := [[[some c7pk2s]]], windowSize := 1,
    trafficTx := [[[], [c7pk1s, c7pk2s]], [[], []]],
    trafficRx := [[[], [c7pk1s, c7pk2s]], [[], []]],
    elapsedTime := 1 }

def c7e5pre : Environment :=
  { c7e4 with
    commsPlatforms := [c7plat 1 10 3 [] [] 3, c7plat 2 10 3 [] [1, 2] 1],
    elapsedTime := 10 }

/-- Counterexample end state: after `step(9)` the elapsed time is back to
10, and the entry stamped at time 1 survives pruning behind the newer head
stamped at time 10. -/
def c7e5 : Environment :=
  { commsPlatforms := [c7plat 1 10 3 [] [] 3, c7plat 2 10 3 [] [1, 2] 1],
    disruptorPlatforms := [], numFrequencyBins := 1, disruptorDelay := 1,
    coordinator := { platformIDs := [1, 2], numFrequencyBins := 1,
                     mac := "rr", tdmaIndex := 0 },
    adjMatrix := allTrue 2, data := [[none]],
    dataQueue := [[[none]]], windowSize := 1,
    trafficTx := [[[], [c7pk1s, c7pk2s]], [[], []]],
    trafficRx := [[[], [c7pk1s, c7pk2s]], [[], []]],
    elapsedTime := 10 }

/-- Counterexample disruptor: id 5, one token, one bin, ten steps per
epoch. -/
def c2disruptor : DisruptorPlatform :=
  ((DisruptorPlatform.init 5 1 1 10).toOption).getD default

/-- Counterexample adjacency: the disruptor (row/column 1) is adjacent to
the comms platform but not to itself. -/
def c2adj : List (List Bool) := [[true, true], [true, false]]

def c2e0 : Environment :=
  ((Environment.init c2adj [mkCommsPlatform 1] [c2disruptor] 1 1 "rr"
    0).toOption).getD default

def c2e1 : Environment := ((c2e0.step 1 [[0]]).toOption).getD default

def c2e2 : Environment := ((c2e1.step 1 []).toOption).getD default

/-- The witness run for the delayed-observation characterization. -/
def c2wrun : Environment × List Grid :=
  ((c2e0.runH [.step 1 [[0]], .step 1 []]).toOption).getD (default, [])

namespace CommsPlatform

lemma putDataLoop_const (batch : List Emission) (p : CommsPlatform) :
    (p.putDataLoop batch).id = p.id ∧
    (p.putDataLoop batch).maxSize = p.maxSize ∧
    (p.putDataLoop batch).doAck = p.doAck ∧
    (p.putDataLoop batch).elapsedTime = p.elapsedTime := by
  induction batch generalizing p with
  | nil => simp [putDataLoop]
  | cons e rest ih =>
    cases e with
    | ack h a m => simpa [putDataLoop] using ih p
    | token h => simpa [putDataLoop] using ih p
    | packet h pay m =>
      by_cases hful : p.maxSize ≤ p.rxQueue.length
      · simpa [putDataLoop, hful] using ih p
      · simp only [putDataLoop, if_neg (by omega : ¬ p.maxSize ≤ p.rxQueue.length)]
        by_cases hack : p.doAck
        · simp only [hack, if_pos, txPacket]
          by_cases htx : p.maxSize ≤ p.txQueue.length <;>
            simpa [htx] using ih _
        · simpa [hack] using ih _

/-- Full characterization of `putDataLoop`: the receive queue gains the
payloads of the plain packets that fit, the message-id counter advances by
one per enqueued packet when `doAck` is set, and the transmit queue gains
the matching acknowledgements (truncated by its own capacity). -/
lemma putDataLoop_spec (batch : List Emission) (p : CommsPlatform) :
    (p.putDataLoop batch).rxQueue =
      p.rxQueue ++ ((plainPackets batch).map Emission.payload).take
        (p.maxSize - p.rxQueue.length) ∧
    (p.putDataLoop batch).currentMsgID =
      p.currentMsgID + (if p.doAck then
        ((plainPackets batch).take (p.maxSize - p.rxQueue.length)).length
        else 0) ∧
    (p.putDataLoop batch).txQueue =
      p.txQueue ++ (if p.doAck then
        (acksFor p.id p.elapsedTime p.currentMsgID
          ((plainPackets batch).take (p.maxSize - p.rxQueue.length))).take
            (p.maxSize - p.txQueue.length)
        else []) := by
  induction batch generalizing p with
  | nil => simp [putDataLoop, plainPackets, acksFor]
  | cons e rest ih =>
    cases e with
    | ack h a m =>
      simpa [putDataLoop, plainPackets, Emission.isPlainPacket] using ih p
    | token h =>
      simpa [putDataLoop, plainPackets, Emission.isPlainPacket] using ih p
    | packet h pay m =>
      have hplain : plainPackets (Emission.packet h pay m :: rest) =
          Emission.packet h pay m :: plainPackets rest := by
        simp [plainPackets, Emission.isPlainPacket]
      by_cases hful : p.maxSize ≤ p.rxQueue.length
      · have hzero : p.maxSize - p.rxQueue.length = 0 := by omega
        simpa [putDataLoop, hful, hplain, hzero] using ih p
      · have hsub : p.maxSize - p.rxQueue.length =
            (p.maxSize - (p.rxQueue.length + 1)) + 1 := by omega
        by_cases hack : p.doAck
        · by_cases htx : p.maxSize ≤ p.txQueue.length
          · have hstep : p.putDataLoop (Emission.packet h pay m :: rest) =
                putDataLoop { p with rxQueue := p.rxQueue ++ [pay],
                                     currentMsgID := p.currentMsgID + 1 } rest := by
              simp [putDataLoop, txPacket, hful, hack, htx, Emission.payload]
            obtain ⟨h1, h2, h3⟩ := ih
              { p with rxQueue := p.rxQueue ++ [pay],
                       currentMsgID := p.currentMsgID + 1 }
            have htx0 : p.maxSize - p.txQueue.length = 0 := by omega
            refine ⟨?_, ?_, ?_⟩
            · rw [hstep, h1]
              simp [hplain, hsub, Emission.payload, List.take_succ_cons]
            · rw [hstep, h2]
              simp [hplain, hsub, hack, List.take_succ_cons]
              omega
            · rw [hstep, h3]
              simp [hack, htx0]
          · have htxsub : p.maxSize - p.txQueue.length =
                (p.maxSize - (p.txQueue.length + 1)) + 1 := by omega
            have hstep : p.putDataLoop (Emission.packet h pay m :: rest) =
                putDataLoop { p with rxQueue := p.rxQueue ++ [pay],
                                     currentMsgID := p.currentMsgID + 1,
                                     txQueue := p.txQueue ++
                                       [.ack ⟨p.id, [h.sourceID], p.elapsedTime,
                                         none, 0, none⟩ m p.currentMsgID] } rest := by
              simp [putDataLoop, txPacket, hful, hack, htx, Emission.payload]
            obtain ⟨h1, h2, h3⟩ := ih
              { p with rxQueue := p.rxQueue ++ [pay],
                       currentMsgID := p.currentMsgID + 1,
                       txQueue := p.txQueue ++
                         [.ack ⟨p.id, [h.sourceID], p.elapsedTime,
                           none, 0, none⟩ m p.currentMsgID] }
            refine ⟨?_, ?_, ?_⟩
            · rw [hstep, h1]
              simp [hplain, hsub, Emission.payload, List.take_succ_cons]
            · rw [hstep, h2]
              simp [hplain, hsub, hack, List.take_succ_cons]
              omega
            · rw [hstep, h3]
              simp only [hplain, hsub, List.take_succ_cons, hack, if_pos,
                acksFor, Emission.sourceID, Emission.header, Emission.msgID,
                htxsub, List.length_append, List.length_cons, List.length_nil]
              simp [List.append_assoc]
        · have hstep : p.putDataLoop (Emission.packet h pay m :: rest) =
              putDataLoop { p with rxQueue := p.rxQueue ++ [pay] } rest := by
            simp [putDataLoop, txPacket, hful, hack, Emission.payload]
          obtain ⟨h1, h2, h3⟩ := ih { p with rxQueue := p.rxQueue ++ [pay] }
          refine ⟨?_, ?_, ?_⟩
          · rw [hstep, h1]
            simp [hplain, hsub, Emission.payload, List.take_succ_cons]
          · rw [hstep, h2]
            simp [hack]
          · rw [hstep, h3]
            simp [hack]

end CommsPlatform

lemma getD_set_self {α : Type} {l : List α} {i : Nat} (h : i < l.length)
    (v dflt : α) : (l.set i v).getD i dflt = v := by
  rw [List.getD_eq_getElem?_getD, List.getElem?_set_self h]
  rfl

lemma getD_set_ne {α : Type} {l : List α} {i j : Nat} (h : i ≠ j)
    (v : α) (dflt : α) : (l.set i v).getD j dflt = l.getD j dflt := by
  rw [List.getD_eq_getElem?_getD, List.getElem?_set_ne h,
    ← List.getD_eq_getElem?_getD]

lemma getD_eq_getElem_of_lt {α : Type} {l : List α} {i : Nat} (h : i < l.length)
    (dflt : α) : l.getD i dflt = l[i] := by
  rw [List.getD_eq_getElem?_getD, List.getElem?_eq_getElem h]
  rfl

lemma indexOf?_some_facts {l : List Nat} {x : Nat} :
    ∀ {i : Nat}, l.indexOf? x = some i → i < l.length ∧ l[i]? = some x := by
  induction l with
  | nil =>
    intro i h
    rw [List.indexOf?_nil] at h
    exact absurd h (by simp)
  | cons a t ih =>
    intro i h
    rw [List.indexOf?_cons] at h
    by_cases hax : (a == x) = true
    · rw [if_pos hax] at h
      simp only [Option.some.injEq] at h
      subst h
      simp only [beq_iff_eq] at hax
      subst hax
      exact ⟨by simp, by simp⟩
    · rw [if_neg hax] at h
      cases hi : t.indexOf? x with
      | none => rw [hi] at h; exact Option.noConfusion h
      | some j =>
        rw [hi] at h
        have h' : j + 1 = i := by
          simpa using congrArg (fun o => o.getD 0) h
        subst h'
        obtain ⟨h1, h2⟩ := ih hi
        exact ⟨by simpa using h1, by simpa using h2⟩

lemma indexOf?_getD_of_nodup {l : List Nat} (hnd : l.Nodup) {d : Nat}
    (hd : d < l.length) : l.indexOf? (l.getD d 0) = some d := by
  induction l generalizing d with
  | nil => simp at hd
  | cons a t ih =>
    rw [List.indexOf?_cons]
    cases d with
    | zero => simp
    | succ n =>
      have hn : n < t.length := by simpa using hd
      have hmem : t.getD n 0 ∈ t := by
        rw [getD_eq_getElem_of_lt hn]
        exact List.getElem_mem hn
      have hne : ¬ (a == t.getD n 0) = true := by
        simp only [beq_iff_eq]
        intro hcon
        exact (List.nodup_cons.mp hnd).1 (hcon ▸ hmem)
      simp only [List.getD_cons_succ]
      rw [if_neg hne, ih (List.Nodup.of_cons hnd) hn]
      rfl

lemma indexOf?_eq_some_iff_of_nodup {l : List Nat} (hnd : l.Nodup) {d : Nat}
    (hd : d < l.length) (x : Nat) :
    l.indexOf? x = some d ↔ x = l.getD d 0 := by
  constructor
  · intro h
    obtain ⟨h1, h2⟩ := indexOf?_some_facts h
    rw [List.getD_eq_getElem?_getD, h2]
    rfl
  · rintro rfl
    exact indexOf?_getD_of_nodup hnd hd

lemma TrafficShape.replicate (C : Nat) :
    TrafficShape (List.replicate C (List.replicate C [])) C := by
  refine ⟨by simp, ?_⟩
  intro row hrow
  simp [List.eq_of_mem_replicate hrow]

lemma get2_upd2_self {m : TrafficMatrix} {C : Nat} (hm : TrafficShape m C)
    {s d : Nat} (hs : s < C) (hd : d < C) (f : List Emission → List Emission) :
    get2 (upd2 m s d f) s d = f (get2 m s d) := by
  obtain ⟨hlen, hrow⟩ := hm
  have hs' : s < m.length := by omega
  have hrowlen : (m.getD s []).length = C := by
    rw [getD_eq_getElem_of_lt hs']
    exact hrow _ (List.getElem_mem hs')
  have hd' : d < (m.getD s []).length := by omega
  unfold get2 upd2
  rw [getD_set_self hs', getD_set_self hd']
  rfl

lemma get2_upd2_ne {m : TrafficMatrix} {s d s' d' : Nat}
    (h : s ≠ s' ∨ d ≠ d') (f : List Emission → List Emission) :
    get2 (upd2 m s d f) s' d' = get2 m s' d' := by
  unfold get2 upd2
  by_cases hss : s = s'
  · subst hss
    rcases h with h | h
    · exact absurd rfl h
    · by_cases hs : s < m.length
      · rw [getD_set_self hs, getD_set_ne h]
      · rw [List.set_eq_of_length_le (by omega)]
  · rw [getD_set_ne hss]

lemma upd2_shape {m : TrafficMatrix} {C : Nat} (hm : TrafficShape m C)
    (s d : Nat) (f : List Emission → List Emission) :
    TrafficShape (upd2 m s d f) C := by
  obtain ⟨hlen, hrow⟩ := hm
  refine ⟨by simpa [upd2] using hlen, ?_⟩
  intro row hmemb
  unfold upd2 at hmemb
  by_cases hs : s < m.length
  · rcases List.mem_or_eq_of_mem_set hmemb with h | h
    · exact hrow row h
    · subst h
      rw [List.length_set, getD_eq_getElem_of_lt hs]
      exact hrow _ (List.getElem_mem hs)
  · rw [List.set_eq_of_length_le (by omega)] at hmemb
    exact hrow row hmemb

lemma getD_upd1_self {xs : List (List Emission)} {i : Nat}
    (hi : i < xs.length) (f : List Emission → List Emission) :
    (upd1 xs i f).getD i [] = f (xs.getD i []) := by
  unfold upd1
  rw [getD_set_self hi]

lemma getD_upd1_ne {xs : List (List Emission)} {i j : Nat} (h : i ≠ j)
    (f : List Emission → List Emission) :
    (upd1 xs i f).getD j [] = xs.getD j [] := by
  unfold upd1
  rw [getD_set_ne h]

lemma upd1_length (xs : List (List Emission)) (i : Nat)
    (f : List Emission → List Emission) :
    (upd1 xs i f).length = xs.length := by
  simp [upd1]

lemma fanStep_spec (adj : List (List Bool)) (cIDs dIDs : List Nat)
    (e : Emission) (st : FanState) (x : Nat)
    (hshape : TrafficShape st.trafficTx cIDs.length)
    (hlen : st.txData.length = cIDs.length) :
    TrafficShape (fanStep adj cIDs dIDs e st x).trafficTx cIDs.length ∧
    (fanStep adj cIDs dIDs e st x).txData.length = cIDs.length ∧
    (∀ s d, s < cIDs.length → d < cIDs.length →
      get2 (fanStep adj cIDs dIDs e st x).trafficTx s d =
        get2 st.trafficTx s d ++
          (if cIDs.indexOf? x = some d ∧ e.sourceType = 0 ∧
              cIDs.indexOf? e.sourceID = some s then [e] else [])) ∧
    (∀ d, d < cIDs.length →
      (fanStep adj cIDs dIDs e st x).txData.getD d [] =
        st.txData.getD d [] ++
          (if cIDs.indexOf? x = some d ∧
              ((srcIndex cIDs dIDs e).any (fun si => adjGet adj si d)) = true
           then [e] else [])) := by
  unfold fanStep
  cases hx : cIDs.indexOf? x with
  | none =>
    refine ⟨hshape, hlen, ?_, ?_⟩
    · intro s d _ _
      rw [if_neg (by simp)]
      simp
    · intro d _
      rw [if_neg (by simp)]
      simp
  | some dst =>
    simp only []
    have hdst : dst < cIDs.length := (indexOf?_some_facts hx).1
    by_cases hty : (e.sourceType == 0) = true
    · have hty' : e.sourceType = 0 := by simpa using hty
      rw [if_pos hty]
      cases hsrc : cIDs.indexOf? e.sourceID with
      | none =>
        have hsi : srcIndex cIDs dIDs e = none := by
          unfold srcIndex
          rw [if_pos hty, hsrc]
        refine ⟨hshape, hlen, ?_, ?_⟩
        · intro s d _ _
          rw [if_neg (by simp)]
          simp
        · intro d _
          rw [if_neg (by simp [hsi])]
          simp
      | some src =>
        simp only []
        have hsi : srcIndex cIDs dIDs e = some src := by
          unfold srcIndex
          rw [if_pos hty, hsrc]
        have hsrclt : src < cIDs.length := (indexOf?_some_facts hsrc).1
        have hshape1 : TrafficShape (upd2 st.trafficTx src dst (· ++ [e]))
            cIDs.length := upd2_shape hshape src dst _
        have htx : ∀ s d, s < cIDs.length → d < cIDs.length →
            get2 (upd2 st.trafficTx src dst (· ++ [e])) s d =
              get2 st.trafficTx s d ++
                (if (some dst : Option Nat) = some d ∧ e.sourceType = 0 ∧
                    (some src : Option Nat) = some s then [e] else []) := by
          intro s d hs hd
          by_cases h1 : src = s
          · by_cases h2 : dst = d
            · subst h1 h2
              rw [get2_upd2_self hshape hsrclt hdst]
              rw [if_pos ⟨rfl, hty', rfl⟩]
            · rw [get2_upd2_ne (Or.inr h2)]
              rw [if_neg (by rintro ⟨hc, -, -⟩; exact h2 (Option.some.inj hc))]
              simp
          · rw [get2_upd2_ne (Or.inl h1)]
            rw [if_neg (by rintro ⟨-, -, hc⟩; exact h1 (Option.some.inj hc))]
            simp
        by_cases hadj : adjGet adj src dst = true
        · rw [if_pos hadj]
          refine ⟨hshape1, by simpa [upd1] using hlen, htx, ?_⟩
          intro d hd
          by_cases h2 : dst = d
          · subst h2
            rw [getD_upd1_self (by omega)]
            rw [if_pos ⟨rfl, by rw [hsi]; simpa using hadj⟩]
          · rw [getD_upd1_ne h2]
            rw [if_neg (by rintro ⟨hc, -⟩; exact h2 (Option.some.inj hc))]
            simp
        · rw [if_neg hadj]
          refine ⟨hshape1, hlen, htx, ?_⟩
          intro d hd
          rw [if_neg ?_]
          · simp
          · rintro ⟨hc, hany⟩
            have h2 : dst = d := Option.some.inj hc
            subst h2
            rw [hsi] at hany
            simp only [Option.any_some] at hany
            exact hadj hany
    · rw [if_neg hty]
      have hty1 : ¬ (e.sourceType = 0) := by simpa using hty
      cases hsrc : dIDs.indexOf? e.sourceID with
      | none =>
        have hsi : srcIndex cIDs dIDs e = none := by
          unfold srcIndex
          rw [if_neg hty, hsrc]
          rfl
        refine ⟨hshape, hlen, ?_, ?_⟩
        · intro s d _ _
          rw [if_neg (by rintro ⟨-, hc, -⟩; exact hty1 hc)]
          simp
        · intro d _
          rw [if_neg (by simp [hsi])]
          simp
      | some si =>
        simp only []
        have hsi : srcIndex cIDs dIDs e = some (cIDs.length + si) := by
          unfold srcIndex
          rw [if_neg hty, hsrc]
          rfl
        by_cases hadj : adjGet adj (cIDs.length + si) dst = true
        · rw [if_pos hadj]
          refine ⟨hshape, by simpa [upd1] using hlen, ?_, ?_⟩
          · intro s d _ _
            rw [if_neg (by rintro ⟨-, hc, -⟩; exact hty1 hc)]
            simp
          · intro d hd
            by_cases h2 : dst = d
            · subst h2
              rw [getD_upd1_self (by omega)]
              rw [if_pos ⟨rfl, by rw [hsi]; simpa using hadj⟩]
            · rw [getD_upd1_ne h2]
              rw [if_neg (by rintro ⟨hc, -⟩; exact h2 (Option.some.inj hc))]
              simp
        · rw [if_neg hadj]
          refine ⟨hshape, hlen, ?_, ?_⟩
          · intro s d _ _
            rw [if_neg (by rintro ⟨-, hc, -⟩; exact hty1 hc)]
            simp
          · intro d hd
            rw [if_neg ?_]
            · simp
            · rintro ⟨hc, hany⟩
              have h2 : dst = d := Option.some.inj hc
              subst h2
              rw [hsi] at hany
              simp only [Option.any_some] at hany
              exact hadj hany

lemma destContribTx_cons (cIDs : List Nat) (e : Emission) (s d : Nat)
    (x : Nat) (xs : List Nat) :
    destContribTx cIDs e s d (x :: xs) =
      (if cIDs.indexOf? x = some d ∧ e.sourceType = 0 ∧
          cIDs.indexOf? e.sourceID = some s then [e] else []) ++
        destContribTx cIDs e s d xs := by
  simp [destContribTx]

lemma destContribBatch_cons (adj : List (List Bool)) (cIDs dIDs : List Nat)
    (e : Emission) (d : Nat) (x : Nat) (xs : List Nat) :
    destContribBatch adj cIDs dIDs e d (x :: xs) =
      (if cIDs.indexOf? x = some d ∧
          ((srcIndex cIDs dIDs e).any (fun si => adjGet adj si d)) = true
       then [e] else []) ++
        destContribBatch adj cIDs dIDs e d xs := by
  simp [destContribBatch]

lemma fanFold_spec (adj : List (List Bool)) (cIDs dIDs : List Nat)
    (e : Emission) :
    ∀ (xs : List Nat) (st : FanState),
      TrafficShape st.trafficTx cIDs.length →
      st.txData.length = cIDs.length →
      TrafficShape (xs.foldl (fanStep adj cIDs dIDs e) st).trafficTx
        cIDs.length ∧
      (xs.foldl (fanStep adj cIDs dIDs e) st).txData.length = cIDs.length ∧
      (∀ s d, s < cIDs.length → d < cIDs.length →
        get2 (xs.foldl (fanStep adj cIDs dIDs e) st).trafficTx s d =
          get2 st.trafficTx s d ++ destContribTx cIDs e s d xs) ∧
      (∀ d, d < cIDs.length →
        (xs.foldl (fanStep adj cIDs dIDs e) st).txData.getD d [] =
          st.txData.getD d [] ++ destContribBatch adj cIDs dIDs e d xs) := by
  intro xs
  induction xs with
  | nil =>
    intro st h1 h2
    exact ⟨h1, h2, by simp [destContribTx], by simp [destContribBatch]⟩
  | cons x rest ih =>
    intro st h1 h2
    obtain ⟨s1, s2, s3, s4⟩ := fanStep_spec adj cIDs dIDs e st x h1 h2
    obtain ⟨i1, i2, i3, i4⟩ := ih (fanStep adj cIDs dIDs e st x) s1 s2
    refine ⟨i1, i2, ?_, ?_⟩
    · intro s d hs hd
      rw [List.foldl_cons, i3 s d hs hd, s3 s d hs hd]
      rw [destContribTx_cons, List.append_assoc]
    · intro d hd
      rw [List.foldl_cons, i4 d hd, s4 d hd]
      rw [destContribBatch_cons adj cIDs dIDs, List.append_assoc]

lemma fanCell_spec (adj : List (List Bool)) (cIDs dIDs : List Nat)
    (e : Emission) (st : FanState)
    (h1 : TrafficShape st.trafficTx cIDs.length)
    (h2 : st.txData.length = cIDs.length) :
    TrafficShape (fanCell adj cIDs dIDs st e).trafficTx cIDs.length ∧
    (fanCell adj cIDs dIDs st e).txData.length = cIDs.length ∧
    (∀ s d, s < cIDs.length → d < cIDs.length →
      get2 (fanCell adj cIDs dIDs st e).trafficTx s d =
        get2 st.trafficTx s d ++ contribTx cIDs e s d) ∧
    (∀ d, d < cIDs.length →
      (fanCell adj cIDs dIDs st e).txData.getD d [] =
        st.txData.getD d [] ++ contribBatch adj cIDs dIDs e d) :=
  fanFold_spec adj cIDs dIDs e e.destID st h1 h2

lemma grid_row_foldl (adj : List (List Bool)) (cIDs dIDs : List Nat) :
    ∀ (row : List (Option Emission)) (st : FanState),
      row.foldl
        (fun st cell =>
          match cell with
          | none => st
          | some e => fanCell adj cIDs dIDs st e) st =
      (row.filterMap id).foldl (fanCell adj cIDs dIDs) st := by
  intro row
  induction row with
  | nil => intro st; rfl
  | cons c t ih =>
    intro st
    cases c with
    | none => simp [ih]
    | some e => simp [ih]

lemma fanGrid_eq_foldl (adj : List (List Bool)) (cIDs dIDs : List Nat) :
    ∀ (g : Grid) (st : FanState),
      fanGrid adj cIDs dIDs g st =
        (gridEmissions g).foldl (fanCell adj cIDs dIDs) st := by
  intro g
  induction g with
  | nil => intro st; rfl
  | cons row rows ih =>
    intro st
    unfold fanGrid gridEmissions
    rw [List.foldl_cons, List.flatMap_cons, List.foldl_append]
    rw [grid_row_foldl]
    exact ih _

lemma fanGrid_spec (adj : List (List Bool)) (cIDs dIDs : List Nat) :
    ∀ (es : List Emission) (st : FanState),
      TrafficShape st.trafficTx cIDs.length →
      st.txData.length = cIDs.length →
      TrafficShape (es.foldl (fanCell adj cIDs dIDs) st).trafficTx
        cIDs.length ∧
      (es.foldl (fanCell adj cIDs dIDs) st).txData.length = cIDs.length ∧
      (∀ s d, s < cIDs.length → d < cIDs.length →
        get2 (es.foldl (fanCell adj cIDs dIDs) st).trafficTx s d =
          get2 st.trafficTx s d ++
            es.flatMap (fun e => contribTx cIDs e s d)) ∧
      (∀ d, d < cIDs.length →
        (es.foldl (fanCell adj cIDs dIDs) st).txData.getD d [] =
          st.txData.getD d [] ++
            es.flatMap (fun e => contribBatch adj cIDs dIDs e d)) := by
  intro es
  induction es with
  | nil =>
    intro st h1 h2
    exact ⟨h1, h2, by simp, by simp⟩
  | cons e rest ih =>
    intro st h1 h2
    obtain ⟨s1, s2, s3, s4⟩ := fanCell_spec adj cIDs dIDs e st h1 h2
    obtain ⟨i1, i2, i3, i4⟩ := ih (fanCell adj cIDs dIDs st e) s1 s2
    refine ⟨i1, i2, ?_, ?_⟩
    · intro s d hs hd
      rw [List.foldl_cons, i3 s d hs hd, s3 s d hs hd]
      rw [List.flatMap_cons, List.append_assoc]
    · intro d hd
      rw [List.foldl_cons, i4 d hd, s4 d hd]
      rw [List.flatMap_cons, List.append_assoc]

lemma count_flatMap_self (P : Emission) (f : Emission → List Emission)
    (hf : ∀ e y, y ∈ f e → y = e) :
    ∀ l : List Emission, (l.flatMap f).count P = l.count P * (f P).length := by
  intro l
  induction l with
  | nil => simp
  | cons e rest ih =>
    rw [List.flatMap_cons, List.count_append, ih]
    by_cases hP : e = P
    · subst hP
      have hcnt : (f e).count e = (f e).length := by
        rw [List.count_eq_length]
        intro y hy
        simp [hf e y hy]
      rw [hcnt, List.count_cons_self]
      ring
    · have hz : (f e).count P = 0 := by
        rw [List.count_eq_zero]
        intro hc
        exact hP (hf e P hc).symm
      rw [hz, List.count_cons_of_ne (fun hne => hP hne.symm)]
      omega

lemma contribTx_self (cIDs : List Nat) (e : Emission) (s d : Nat) :
    ∀ y ∈ contribTx cIDs e s d, y = e := by
  intro y hy
  unfold contribTx destContribTx at hy
  rw [List.mem_flatMap] at hy
  obtain ⟨x, -, hyx⟩ := hy
  by_cases hc : cIDs.indexOf? x = some d ∧ e.sourceType = 0 ∧
      cIDs.indexOf? e.sourceID = some s
  · rw [if_pos hc] at hyx
    simpa using hyx
  · rw [if_neg hc] at hyx
    simp at hyx

lemma contribTx_length (cIDs : List Nat) (P : Emission) (s d : Nat)
    (hty : P.sourceType = 0) (hsrc : cIDs.indexOf? P.sourceID = some s) :
    (contribTx cIDs P s d).length =
      P.destID.countP (fun x => cIDs.indexOf? x == some d) := by
  unfold contribTx destContribTx
  induction P.destID with
  | nil => simp
  | cons x xs ih =>
    rw [List.flatMap_cons, List.length_append, ih, List.countP_cons]
    by_cases hc : cIDs.indexOf? x = some d
    · rw [if_pos ⟨hc, hty, hsrc⟩]
      simp [hc]
      omega
    · rw [if_neg (by rintro ⟨h, -, -⟩; exact hc h)]
      simp [hc]

lemma countP_isSome_set_none {l : List (Option Emission)} {i : Nat}
    (hi : i < l.length) (hnone : l.getD i none = none) (v : Emission) :
    (l.set i (some v)).countP (fun c => c.isSome) =
      l.countP (fun c => c.isSome) + 1 := by
  induction l generalizing i with
  | nil => simp at hi
  | cons a t ih =>
    cases i with
    | zero =>
      simp only [List.getD_cons_zero] at hnone
      subst hnone
      simp [List.countP_cons]
    | succ n =>
      simp only [List.length_cons, Nat.succ_lt_succ_iff] at hi
      simp only [List.getD_cons_succ] at hnone
      simp [List.set_cons_succ, List.countP_cons, ih hi hnone]
      omega

lemma countP_isSome_foldl_set (f : Nat → Emission) :
    ∀ (sample : List Nat) (l : List (Option Emission)), sample.Nodup →
      (∀ i ∈ sample, i < l.length) → (∀ i ∈ sample, l.getD i none = none) →
      ((sample.foldl (fun acc i => acc.set i (some (f i))) l).countP
        (fun c => c.isSome)) = l.countP (fun c => c.isSome) + sample.length := by
  intro sample
  induction sample with
  | nil => intro l _ _ _; simp
  | cons i rest ih =>
    intro l hnd hlt hnone
    have hi : i < l.length := hlt i (by simp)
    have hin : l.getD i none = none := hnone i (by simp)
    have hset := countP_isSome_set_none hi hin (f i)
    simp only [List.foldl_cons]
    rw [ih (l.set i (some (f i))) (List.Nodup.of_cons hnd)
      (by intro j hj; simpa using hlt j (by simp [hj]))
      (by
        intro j hj
        have hne : j ≠ i := by
          rintro rfl
          exact (List.nodup_cons.mp hnd).1 hj
        rw [List.getD_eq_getElem?_getD, List.getElem?_set_ne (by omega)]
        rw [← List.getD_eq_getElem?_getD]
        exact hnone j (by simp [hj]))]
    rw [hset]
    simp [List.length_cons]
    omega

/-- `getDisruptions` places exactly one token per sampled bin: the number
of occupied cells in the returned vector equals the sample length. -/
lemma placeTokens_count (d : DisruptorPlatform) (sample : List Nat)
    (hnd : sample.Nodup) (hlt : ∀ i ∈ sample, i < d.numFrequencyBins) :
    (DisruptorPlatform.placeTokens d sample).countP (fun c => c.isSome) =
      sample.length := by
  have hfold := countP_isSome_foldl_set
    (fun i => .token ⟨d.id, d.commsDestIDs, d.elapsedTime, none, i, some d.pos⟩)
    sample (List.replicate d.numFrequencyBins none) hnd
    (by simpa using hlt) (by intro i hi; simp)
  have h0 : (List.replicate d.numFrequencyBins (none : Option Emission)).countP
      (fun c => c.isSome) = 0 :=
    List.countP_eq_zero.mpr (by intro a ha; simp_all [List.eq_of_mem_replicate ha])
  rw [DisruptorPlatform.placeTokens, hfold, h0, Nat.zero_add]

lemma rxFold_spec (cIDs : List Nat) (dst : Nat) (b : Bool) :
    ∀ (batch : List Emission) (m : TrafficMatrix),
      TrafficShape m cIDs.length →
      TrafficShape (batch.foldl (rxStep cIDs dst b) m) cIDs.length ∧
      (∀ s d, s < cIDs.length → d < cIDs.length →
        get2 (batch.foldl (rxStep cIDs dst b) m) s d =
          get2 m s d ++
            (if b = false ∧ d = dst then
              batch.filter (fun e => e.sourceType == 0 &&
                cIDs.indexOf? e.sourceID == some s)
             else [])) := by
  intro batch
  induction batch with
  | nil =>
    intro m hm
    refine ⟨hm, ?_⟩
    intro s d _ _
    simp
  | cons e rest ih =>
    intro m hm
    have hone : TrafficShape (rxStep cIDs dst b m e) cIDs.length ∧
        (∀ s d, s < cIDs.length → d < cIDs.length →
          get2 (rxStep cIDs dst b m e) s d =
            get2 m s d ++
              (if b = false ∧ d = dst ∧ e.sourceType = 0 ∧
                  cIDs.indexOf? e.sourceID = some s then [e] else [])) := by
      unfold rxStep
      by_cases hty : (e.sourceType == 0) = true
      · rw [if_pos hty]
        cases hsrc : cIDs.indexOf? e.sourceID with
        | none =>
          refine ⟨hm, ?_⟩
          intro s d _ _
          rw [if_neg (by rintro ⟨-, -, -, hc⟩; simp at hc)]
          simp
        | some src =>
          simp only []
          cases b with
          | true =>
            rw [if_pos rfl]
            refine ⟨hm, ?_⟩
            intro s d _ _
            rw [if_neg (by rintro ⟨hc, -⟩; simp at hc)]
            simp
          | false =>
            rw [if_neg (by simp)]
            have hsrclt : src < cIDs.length := (indexOf?_some_facts hsrc).1
            refine ⟨upd2_shape hm src dst _, ?_⟩
            intro s d hs hd
            by_cases h1 : src = s
            · by_cases h2 : dst = d
              · subst h1 h2
                rw [get2_upd2_self hm hsrclt hd]
                rw [if_pos ⟨rfl, rfl, by simpa using hty, rfl⟩]
              · rw [get2_upd2_ne (Or.inr h2)]
                rw [if_neg (by rintro ⟨-, hc, -, -⟩; exact h2 hc.symm)]
                simp
            · rw [get2_upd2_ne (Or.inl h1)]
              rw [if_neg ?_]
              · simp
              · rintro ⟨-, -, -, hc⟩
                exact h1 (Option.some.inj hc)
      · rw [if_neg hty]
        refine ⟨hm, ?_⟩
        intro s d _ _
        rw [if_neg (by
          rintro ⟨-, -, hc, -⟩
          exact absurd hc (by simpa using hty))]
        simp
    obtain ⟨h1, h2⟩ := hone
    obtain ⟨i1, i2⟩ := ih (rxStep cIDs dst b m e) h1
    refine ⟨i1, ?_⟩
    intro s d hs hd
    rw [List.foldl_cons, i2 s d hs hd, h2 s d hs hd, List.append_assoc]
    have hsuffix : (if b = false ∧ d = dst ∧ e.sourceType = 0 ∧
        cIDs.indexOf? e.sourceID = some s then [e] else []) ++
          (if b = false ∧ d = dst then
            rest.filter (fun e => e.sourceType == 0 &&
              cIDs.indexOf? e.sourceID == some s)
           else []) =
        (if b = false ∧ d = dst then
          (e :: rest).filter (fun e => e.sourceType == 0 &&
            cIDs.indexOf? e.sourceID == some s)
         else []) := by
      by_cases hb : b = false
      · by_cases hdd : d = dst
        · subst hb hdd
          by_cases hX : e.sourceType = 0 ∧ cIDs.indexOf? e.sourceID = some s
          · rw [if_pos ⟨rfl, rfl, hX.1, hX.2⟩, if_pos ⟨rfl, rfl⟩,
              if_pos ⟨rfl, rfl⟩, List.filter_cons,
              if_pos (by simp [hX.1, hX.2])]
            simp
          · rw [if_neg (by rintro ⟨-, -, h3, h4⟩; exact hX ⟨h3, h4⟩),
              if_pos ⟨rfl, rfl⟩, if_pos ⟨rfl, rfl⟩, List.filter_cons,
              if_neg (by
                intro hpe
                simp only [Bool.and_eq_true, beq_iff_eq] at hpe
                exact hX ⟨hpe.1, by simpa using hpe.2⟩)]
            simp
        · simp [hdd]
      · simp [hb]
    rw [hsuffix]

lemma rxBatch_spec (cIDs : List Nat) (dst : Nat) (batch : List Emission)
    (m : TrafficMatrix) (hm : TrafficShape m cIDs.length) :
    TrafficShape (rxBatch cIDs dst batch m) cIDs.length ∧
    (∀ s d, s < cIDs.length → d < cIDs.length →
      get2 (rxBatch cIDs dst batch m) s d =
        get2 m s d ++
          (if (batch.any (fun e => e.sourceType == 1)) = false ∧ d = dst then
            batch.filter (fun e => e.sourceType == 0 &&
              cIDs.indexOf? e.sourceID == some s)
           else [])) :=
  rxFold_spec cIDs dst (batch.any (fun e => e.sourceType == 1)) batch m hm

lemma rxRange_spec (cIDs : List Nat) (txData : List (List Emission)) :
    ∀ (ds : List Nat) (m : TrafficMatrix), ds.Nodup →
      TrafficShape m cIDs.length →
      TrafficShape (ds.foldl
        (fun m dst => rxBatch cIDs dst (txData.getD dst []) m) m)
        cIDs.length ∧
      (∀ s d, s < cIDs.length → d < cIDs.length →
        get2 (ds.foldl (fun m dst => rxBatch cIDs dst (txData.getD dst []) m) m)
            s d =
          get2 m s d ++
            (if d ∈ ds ∧
                ((txData.getD d []).any (fun e => e.sourceType == 1)) = false then
              (txData.getD d []).filter (fun e => e.sourceType == 0 &&
                cIDs.indexOf? e.sourceID == some s)
             else [])) := by
  intro ds
  induction ds with
  | nil =>
    intro m _ hm
    refine ⟨hm, ?_⟩
    intro s d _ _
    simp
  | cons dst rest ih =>
    intro m hnd hm
    obtain ⟨h1, h2⟩ := rxBatch_spec cIDs dst (txData.getD dst []) m hm
    obtain ⟨i1, i2⟩ := ih (rxBatch cIDs dst (txData.getD dst []) m)
      (List.Nodup.of_cons hnd) h1
    refine ⟨i1, ?_⟩
    intro s d hs hd
    rw [List.foldl_cons, i2 s d hs hd, h2 s d hs hd, List.append_assoc]
    have hdst_notin : dst ∉ rest := (List.nodup_cons.mp hnd).1
    by_cases hdd : d = dst
    · subst hdd
      have hnotin : ¬ (d ∈ rest) := hdst_notin
      by_cases hany : ((txData.getD d []).any (fun e => e.sourceType == 1)) = false
      · rw [if_pos ⟨hany, rfl⟩, if_neg (by rintro ⟨hc, -⟩; exact hnotin hc),
          if_pos ⟨by simp, hany⟩]
        simp
      · rw [if_neg (by rintro ⟨hc, -⟩; exact hany hc),
          if_neg (by rintro ⟨hc, -⟩; exact hnotin hc),
          if_neg (by rintro ⟨-, hc⟩; exact hany hc)]
        simp
    · rw [if_neg (by rintro ⟨-, hc⟩; exact hdd hc)]
      by_cases hmem : d ∈ rest
      · by_cases hany : ((txData.getD d []).any (fun e => e.sourceType == 1)) = false
        · rw [if_pos ⟨hmem, hany⟩, if_pos ⟨by simp [hmem], hany⟩]
          simp
        · rw [if_neg (by rintro ⟨-, hc⟩; exact hany hc),
            if_neg (by rintro ⟨-, hc⟩; exact hany hc)]
          simp
      · rw [if_neg (by rintro ⟨hc, -⟩; exact hmem hc),
          if_neg (by
            rintro ⟨hc, -⟩
            rcases List.mem_cons.mp hc with h | h
            · exact hdd h
            · exact hmem h)]
        simp

lemma rxAccount_spec (cIDs : List Nat) (txData : List (List Emission))
    (m : TrafficMatrix) (hm : TrafficShape m cIDs.length) :
    TrafficShape (rxAccount cIDs txData m) cIDs.length ∧
    (∀ s d, s < cIDs.length → d < cIDs.length →
      get2 (rxAccount cIDs txData m) s d =
        get2 m s d ++
          (if ((txData.getD d []).any (fun e => e.sourceType == 1)) = false then
            (txData.getD d []).filter (fun e => e.sourceType == 0 &&
              cIDs.indexOf? e.sourceID == some s)
           else [])) := by
  obtain ⟨h1, h2⟩ := rxRange_spec cIDs txData (List.range cIDs.length) m
    (List.nodup_range _) hm
  refine ⟨h1, ?_⟩
  intro s d hs hd
  rw [rxAccount, h2 s d hs hd]
  congr 1
  by_cases hany : ((txData.getD d []).any (fun e => e.sourceType == 1)) = false
  · rw [if_pos ⟨List.mem_range.mpr hd, hany⟩, if_pos hany]
  · rw [if_neg (by rintro ⟨-, hc⟩; exact hany hc), if_neg hany]

lemma traffic_ext {m1 m2 : TrafficMatrix} {C : Nat}
    (h1 : TrafficShape m1 C) (h2 : TrafficShape m2 C)
    (h : ∀ s d, s < C → d < C → get2 m1 s d = get2 m2 s d) : m1 = m2 := by
  obtain ⟨hl1, hr1⟩ := h1
  obtain ⟨hl2, hr2⟩ := h2
  refine List.ext_getElem (by omega) ?_
  intro s hs1 hs2
  have hrow1 : (m1[s]).length = C := hr1 _ (List.getElem_mem hs1)
  have hrow2 : (m2[s]).length = C := hr2 _ (List.getElem_mem hs2)
  refine List.ext_getElem (by omega) ?_
  intro d hd1 hd2
  have := h s d (by omega) (by omega)
  unfold get2 at this
  rw [getD_eq_getElem_of_lt hs1, getD_eq_getElem_of_lt hs2] at this
  rw [getD_eq_getElem_of_lt (by omega), getD_eq_getElem_of_lt (by omega)] at this
  exact this

lemma trafficStatistics_entry (env : Environment) (s d : Nat)
    (hs : s < env.numCommsPlatforms) (hd : d < env.numCommsPlatforms) :
    (env.trafficStatistics.getD s []).getD d 0 =
      (if (get2 env.trafficTx s d).length ≠ 0 then
        ((get2 env.trafficRx s d).length : ℚ) /
          ((get2 env.trafficTx s d).length : ℚ)
       else 0) := by
  have h1 : env.trafficStatistics.getD s [] =
      List.map (fun d =>
        if (get2 env.trafficTx s d).length ≠ 0 then
          ((get2 env.trafficRx s d).length : ℚ) /
            ((get2 env.trafficTx s d).length : ℚ)
         else 0) (List.range env.numCommsPlatforms) := by
    unfold Environment.trafficStatistics
    rw [List.getD_eq_getElem?_getD, List.getElem?_map, List.getElem?_range hs]
    simp
  rw [h1, List.getD_eq_getElem?_getD, List.getElem?_map, List.getElem?_range hd]
  simp

lemma filter_flatMap {α β : Type} (l : List α) (f : α → List β) (p : β → Bool) :
    (l.flatMap f).filter p = l.flatMap (fun a => (f a).filter p) := by
  induction l with
  | nil => rfl
  | cons a t ih => rw [List.flatMap_cons, List.flatMap_cons, List.filter_append, ih]

lemma allTrue_adjGet {C i j : Nat} (hi : i < C) (hj : j < C) :
    adjGet (allTrue C) i j = true := by
  unfold adjGet allTrue
  have h1 : (List.replicate C (List.replicate C true)).getD i [] =
      List.replicate C true := by
    rw [List.getD_eq_getElem?_getD, List.getElem?_replicate, if_pos hi]
    rfl
  rw [h1, List.getD_eq_getElem?_getD, List.getElem?_replicate, if_pos hj]
  rfl

lemma contribBatch_nil_sourceType {adj : List (List Bool)} {cIDs : List Nat}
    {e : Emission} {d : Nat} {y : Emission}
    (hy : y ∈ contribBatch adj cIDs [] e d) : y.sourceType = 0 := by
  unfold contribBatch destContribBatch at hy
  rw [List.mem_flatMap] at hy
  obtain ⟨x, -, hx⟩ := hy
  by_cases hc : cIDs.indexOf? x = some d ∧
      ((srcIndex cIDs [] e).any (fun si => adjGet adj si d)) = true
  · rw [if_pos hc] at hx
    obtain ⟨-, hsrc⟩ := hc
    rw [List.mem_singleton.mp hx]
    cases hosrc : srcIndex cIDs [] e with
    | none => rw [hosrc] at hsrc; exact absurd hsrc (by simp)
    | some si =>
      unfold srcIndex at hosrc
      by_cases hty : e.sourceType == 0
      · simpa using hty
      · rw [if_neg hty] at hosrc
        simp at hosrc
  · rw [if_neg hc] at hx
    exact absurd hx (List.not_mem_nil y)

lemma contrib_filter_eq (C : Nat) (cIDs : List Nat) (hC : cIDs.length = C)
    (e : Emission) (s d : Nat) :
    (contribBatch (allTrue C) cIDs [] e d).filter
        (fun y => y.sourceType == 0 && cIDs.indexOf? y.sourceID == some s) =
      contribTx cIDs e s d := by
  unfold contribBatch destContribBatch contribTx destContribTx
  rw [filter_flatMap]
  have hfun : ∀ x : Nat,
      ((if cIDs.indexOf? x = some d ∧
          ((srcIndex cIDs [] e).any (fun si => adjGet (allTrue C) si d)) = true
        then [e] else []).filter
          (fun y => y.sourceType == 0 && cIDs.indexOf? y.sourceID == some s)) =
      (if cIDs.indexOf? x = some d ∧ e.sourceType = 0 ∧
          cIDs.indexOf? e.sourceID = some s then [e] else []) := by
    intro x
    by_cases hx : cIDs.indexOf? x = some d
    · have hdlt : d < C := by
        rw [← hC]; exact (indexOf?_some_facts hx).1
      cases hosrc : cIDs.indexOf? e.sourceID with
      | none =>
        by_cases hty : e.sourceType = 0
        · have hsi : srcIndex cIDs [] e = none := by
            unfold srcIndex
            rw [if_pos (by simpa using hty), hosrc]
          rw [if_neg (by rintro ⟨-, hc⟩; rw [hsi] at hc; simp at hc),
            if_neg (by rintro ⟨-, -, hc⟩; exact Option.noConfusion hc)]
          rfl
        · have hsi : srcIndex cIDs [] e = none := by
            unfold srcIndex
            rw [if_neg (by simpa using hty)]
            simp
          rw [if_neg (by rintro ⟨-, hc⟩; rw [hsi] at hc; simp at hc),
            if_neg (by rintro ⟨-, hc, -⟩; exact hty hc)]
          rfl
      | some j =>
        by_cases hty : e.sourceType = 0
        · have hjlt : j < C := by
            rw [← hC]; exact (indexOf?_some_facts hosrc).1
          have hsi : srcIndex cIDs [] e = some j := by
            unfold srcIndex
            rw [if_pos (by simpa using hty), hosrc]
          have hadj : ((srcIndex cIDs [] e).any
              (fun si => adjGet (allTrue C) si d)) = true := by
            rw [hsi]
            simpa using allTrue_adjGet hjlt hdlt
          rw [if_pos ⟨hx, hadj⟩]
          by_cases hjs : j = s
          · rw [if_pos ⟨hx, hty, by rw [hjs]⟩]
            simp [List.filter, hty, hosrc, hjs]
          · rw [if_neg (by
              rintro ⟨-, -, hc⟩
              exact hjs (Option.some.inj hc))]
            have hbeq : (j == s) = false := by simpa using hjs
            simp [List.filter, hty, hosrc, hbeq]
        · have hsi : srcIndex cIDs [] e = none := by
            unfold srcIndex
            rw [if_neg (by simpa using hty)]
            simp
          rw [if_neg (by rintro ⟨-, hc⟩; rw [hsi] at hc; simp at hc),
            if_neg (by rintro ⟨-, hc, -⟩; exact hty hc)]
          rfl
    · rw [if_neg (by rintro ⟨hc, -⟩; exact hx hc),
        if_neg (by rintro ⟨hc, -⟩; exact hx hc)]
      rfl
  simp only [hfun]

lemma fan_rx_balance (C : Nat) (cIDs : List Nat) (hC : cIDs.length = C)
    (g : Grid) (tx : TrafficMatrix) (htx : TrafficShape tx C) :
    rxAccount cIDs
      (fanGrid (allTrue C) cIDs [] g
        { txData := List.replicate C [], trafficTx := tx }).txData tx =
    (fanGrid (allTrue C) cIDs [] g
      { txData := List.replicate C [], trafficTx := tx }).trafficTx := by
  subst hC
  rw [fanGrid_eq_foldl]
  set E := gridEmissions g with hE
  obtain ⟨h1, h2, h3, h4⟩ := fanGrid_spec (allTrue cIDs.length) cIDs [] E
    { txData := List.replicate cIDs.length [], trafficTx := tx }
    (by simpa using htx) (by simp)
  set st := E.foldl (fanCell (allTrue cIDs.length) cIDs [])
    { txData := List.replicate cIDs.length [], trafficTx := tx } with hst
  obtain ⟨r1, r2⟩ := rxAccount_spec cIDs st.txData tx htx
  refine traffic_ext r1 h1 ?_
  intro s d hs hd
  rw [r2 s d hs hd, h3 s d hs hd]
  have hbatch : st.txData.getD d [] =
      E.flatMap (fun e => contribBatch (allTrue cIDs.length) cIDs [] e d) := by
    rw [h4 d hd]
    simp
  congr 1
  have hnotok : ((st.txData.getD d []).any (fun e => e.sourceType == 1)) = false := by
    rw [hbatch, List.any_eq_false]
    intro y hy
    rw [List.mem_flatMap] at hy
    obtain ⟨e, -, hye⟩ := hy
    have := contribBatch_nil_sourceType hye
    simp [this]
  rw [if_pos hnotok, hbatch, filter_flatMap]
  have hfn : (fun e => (contribBatch (allTrue cIDs.length) cIDs [] e d).filter
      (fun y => y.sourceType == 0 && cIDs.indexOf? y.sourceID == some s)) =
      (fun e => contribTx cIDs e s d) :=
    funext (fun e => contrib_filter_eq cIDs.length cIDs rfl e s d)
  rw [hfn]

/-- The stamp left on every emission by the fan-out phase. -/
lemma setEmissionTime_emissionTime (e : Emission) (t : ℚ) :
    (e.setEmissionTime t).emissionTime = some t := by
  cases e <;> rfl

lemma mem_gridEmissions_stampGrid {t : ℚ} {g : Grid} {e : Emission}
    (h : e ∈ gridEmissions (stampGrid t g)) : e.emissionTime = some t := by
  unfold gridEmissions stampGrid at h
  rw [List.mem_flatMap] at h
  obtain ⟨row, hrow, he⟩ := h
  rw [List.mem_map] at hrow
  obtain ⟨row0, -, rfl⟩ := hrow
  rw [List.mem_filterMap] at he
  obtain ⟨cell, hcell, hid⟩ := he
  rw [List.mem_map] at hcell
  obtain ⟨cell0, -, rfl⟩ := hcell
  cases cell0 with
  | none => exact absurd hid (by simp)
  | some x =>
    have hid2 : x.setEmissionTime t = e := by simpa using hid
    rw [← hid2]
    exact setEmissionTime_emissionTime x t

lemma contribBatch_self (adj : List (List Bool)) (cIDs dIDs : List Nat)
    (e : Emission) (d : Nat) :
    ∀ y ∈ contribBatch adj cIDs dIDs e d, y = e := by
  intro y hy
  unfold contribBatch destContribBatch at hy
  rw [List.mem_flatMap] at hy
  obtain ⟨x, -, hx⟩ := hy
  by_cases hc : cIDs.indexOf? x = some d ∧
      ((srcIndex cIDs dIDs e).any (fun si => adjGet adj si d)) = true
  · rw [if_pos hc] at hx
    exact List.mem_singleton.mp hx
  · rw [if_neg hc] at hx
    exact absurd hx (List.not_mem_nil y)

lemma get2_out_of_range {m : TrafficMatrix} {C : Nat}
    (hm : TrafficShape m C) {s d : Nat} (h : C ≤ s ∨ C ≤ d) :
    get2 m s d = [] := by
  obtain ⟨h1, h2⟩ := hm
  unfold get2
  rcases h with hs | hd
  · have hnil : m.getD s [] = [] := List.getD_eq_default _ _ (by omega)
    rw [hnil]
    rfl
  · by_cases hs : s < m.length
    · have hrow : (m.getD s []).length = C := by
        rw [getD_eq_getElem_of_lt hs]
        exact h2 _ (List.getElem_mem hs)
      exact List.getD_eq_default _ _ (by omega)
    · have hnil : m.getD s [] = [] := List.getD_eq_default _ _ (by omega)
      rw [hnil]
      rfl

lemma get2_replicate_nil (C C' : Nat) (s d : Nat) :
    get2 (List.replicate C (List.replicate C' ([] : List Emission))) s d = [] := by
  unfold get2
  by_cases hs : s < C
  · have hrow : (List.replicate C (List.replicate C'
        ([] : List Emission))).getD s [] = List.replicate C' [] := by
      rw [List.getD_eq_getElem?_getD, List.getElem?_replicate, if_pos hs]
      rfl
    rw [hrow]
    by_cases hd : d < C'
    · rw [List.getD_eq_getElem?_getD, List.getElem?_replicate, if_pos hd]
      rfl
    · exact List.getD_eq_default _ _ (by simp; omega)
  · have hnil : (List.replicate C (List.replicate C'
        ([] : List Emission))).getD s [] = [] :=
      List.getD_eq_default _ _ (by simp; omega)
    rw [hnil]
    rfl

lemma get2_pruneMatrix (t w : ℚ) (m : TrafficMatrix) (s d : Nat) :
    get2 (pruneMatrix t w m) s d = pruneList t w (get2 m s d) := by
  unfold get2 pruneMatrix
  by_cases hs : s < m.length
  · have hrow : (m.map (fun row => row.map (pruneList t w))).getD s [] =
        (m.getD s []).map (pruneList t w) := by
      rw [getD_eq_getElem_of_lt (show s <
          (m.map (fun row => row.map (pruneList t w))).length by
            simpa using hs) [], List.getElem_map,
        getD_eq_getElem_of_lt hs []]
    rw [hrow]
    by_cases hd : d < (m.getD s []).length
    · rw [getD_eq_getElem_of_lt (show d <
          ((m.getD s []).map (pruneList t w)).length by simpa using hd) [],
        List.getElem_map, getD_eq_getElem_of_lt hd []]
    · have h1 : ((m.getD s []).map (pruneList t w)).getD d [] = [] :=
        List.getD_eq_default _ _ (by rw [List.length_map]; omega)
      have h2 : (m.getD s []).getD d [] = [] :=
        List.getD_eq_default _ _ (by omega)
      rw [h1, h2]
      rfl
  · have h1 : (m.map (fun row => row.map (pruneList t w))).getD s [] = [] :=
      List.getD_eq_default _ _ (by simp; omega)
    have h2 : m.getD s [] = [] := List.getD_eq_default _ _ (by omega)
    rw [h1, h2]
    rfl

lemma stampedSorted_nil (E : ℚ) : StampedSorted E [] :=
  ⟨by simp, List.Pairwise.nil⟩

lemma stampedSorted_mono {E E' : ℚ} (h : E ≤ E') {l : List Emission}
    (hl : StampedSorted E l) : StampedSorted E' l := by
  obtain ⟨h1, h2⟩ := hl
  refine ⟨?_, h2⟩
  intro e he
  obtain ⟨t, ht, hte⟩ := h1 e he
  exact ⟨t, ht, le_trans hte h⟩

lemma stampedSorted_append {E E' : ℚ} (hEE : E ≤ E')
    {old new : List Emission} (hold : StampedSorted E old)
    (hnew : ∀ e ∈ new, e.emissionTime = some E') :
    StampedSorted E' (old ++ new) := by
  obtain ⟨h1, h2⟩ := hold
  constructor
  · intro e he
    rcases List.mem_append.mp he with h | h
    · obtain ⟨t, ht, hte⟩ := h1 e h
      exact ⟨t, ht, le_trans hte hEE⟩
    · exact ⟨E', hnew e h, le_refl E'⟩
  · rw [List.pairwise_append]
    refine ⟨h2, ?_, ?_⟩
    · exact List.pairwise_of_forall_mem_list (fun a ha b hb => by
        rw [hnew a ha, hnew b hb])
    · intro a ha b hb
      obtain ⟨t, ht, hte⟩ := h1 a ha
      rw [ht, hnew b hb]
      simpa using le_trans hte hEE

lemma stampedSorted_sublist {E : ℚ} {l l' : List Emission}
    (hsub : l'.Sublist l) (hl : StampedSorted E l) : StampedSorted E l' := by
  obtain ⟨h1, h2⟩ := hl
  exact ⟨fun e he => h1 e (hsub.mem he), h2.sublist hsub⟩

lemma pruneList_sublist (t w : ℚ) (l : List Emission) :
    (pruneList t w l).Sublist l :=
  List.dropWhile_sublist (pruneDrop t w)

lemma pruneList_within (E w : ℚ) (l : List Emission)
    (hl : StampedSorted E l) :
    ∀ e ∈ pruneList E w l, E - e.emissionTime.getD 0 ≤ w := by
  induction l with
  | nil => simp [pruneList]
  | cons a rest ih =>
    obtain ⟨h1, h2⟩ := hl
    intro e he
    rw [pruneList, List.dropWhile_cons] at he
    by_cases hdrop : pruneDrop E w a = true
    · rw [if_pos hdrop] at he
      exact ih ⟨fun x hx => h1 x (List.mem_cons_of_mem a hx),
        (List.pairwise_cons.mp h2).2⟩ e he
    · rw [if_neg hdrop] at he
      obtain ⟨ta, hta, -⟩ := h1 a (List.mem_cons_self a rest)
      have hbound : E - ta ≤ w := by
        rw [pruneDrop, hta] at hdrop
        simpa using le_of_not_lt (by simpa using hdrop)
      rcases List.mem_cons.mp he with rfl | hrest
      · rw [hta]
        simpa using hbound
      · obtain ⟨te, hte, -⟩ := h1 e (List.mem_cons_of_mem a hrest)
        have hge : a.emissionTime.getD 0 ≤ e.emissionTime.getD 0 :=
          (List.pairwise_cons.mp h2).1 e hrest
        rw [hta, hte] at hge
        rw [hte]
        simp only [Option.getD_some] at hge ⊢
        linarith

lemma getD_replicate_nil (n d : Nat) :
    (List.replicate n ([] : List Emission)).getD d [] = [] := by
  by_cases hd : d < n
  · rw [List.getD_eq_getElem?_getD, List.getElem?_replicate, if_pos hd]
    rfl
  · exact List.getD_eq_default _ _ (by simp; omega)

lemma drop_headD {α : Type} :
    ∀ (l : List α) (n : Nat), n < l.length → ∀ (d1 d2 : α),
      (l.drop n).headD d1 = l.getD n d2 := by
  intro l
  induction l with
  | nil => intro n h; simp at h
  | cons a t ih =>
    intro n h d1 d2
    cases n with
    | zero => rfl
    | succ m =>
      rw [List.drop_succ_cons, List.getD_cons_succ]
      exact ih m (by simpa using h) d1 d2

lemma tail_drop_append {α : Type} (A : List α) (S : α) (n : Nat)
    (h : n < A.length) :
    (A.drop n).tail ++ [S] = (A ++ [S]).drop (n + 1) := by
  rw [List.tail_drop]
  rw [List.drop_append_of_le_length (by omega)]

lemma mapIdx_map_proj {α β γ : Type} (h : β → γ) (h2 : α → γ) :
    ∀ (l : List α) (f : Nat → α → β), (∀ k d, h (f k d) = h2 d) →
      (l.mapIdx f).map h = l.map h2 := by
  intro l
  induction l with
  | nil => intro f _; rfl
  | cons a t ih =>
    intro f hf
    rw [List.mapIdx_cons, List.map_cons, List.map_cons, hf,
      ih (fun i => f (i + 1)) (fun k d => hf (k + 1) d)]

lemma getD_map_of_lt2 {α β : Type} (l : List α) (h : α → β)
    (k : Nat) (hk : k < l.length) (dflt : β) (d2 : α) :
    (l.map h).getD k dflt = h (l.getD k d2) := by
  rw [List.getD_eq_getElem?_getD, List.getElem?_map,
    List.getElem?_eq_getElem hk, getD_eq_getElem_of_lt hk]
  rfl

lemma getD_mapIdx_of_lt2 {α β : Type} (l : List α) (f : Nat → α → β)
    (k : Nat) (hk : k < l.length) (dflt : β) (d2 : α) :
    (l.mapIdx f).getD k dflt = f k (l.getD k d2) := by
  rw [List.getD_eq_getElem?_getD, List.getElem?_mapIdx,
    List.getElem?_eq_getElem hk, getD_eq_getElem_of_lt hk]
  rfl

namespace CommsCoordinator

lemma rrLoop_spec (B : Nat) :
    ∀ (ps : List CommsPlatform) (idx : Nat) (tx : List (Option Emission)),
      idx ≤ B → tx.length = B →
      (rrLoop B ps idx tx).2.length = ps.length ∧
      (∀ j, j < idx → (rrLoop B ps idx tx).1.getD j none = tx.getD j none) ∧
      (rrLoop B ps idx tx).1.length = B ∧
      (∀ i, i < ps.length →
        ((rrLoop B ps idx tx).2.getD i default).txQueue =
            (ps.getD i default).txQueue ∨
        ∃ e, (ps.getD i default).txQueue =
            e :: ((rrLoop B ps idx tx).2.getD i default).txQueue ∧
          ∃ b, idx ≤ b ∧ b < B ∧ (rrLoop B ps idx tx).1.getD b none = some e)
  | [], idx, tx => by
    intro hidx htx
    simp [rrLoop, htx]
  | p :: rest, idx, tx => by
    intro hidx htx
    rcases hget : p.getData with ⟨e, p'⟩
    by_cases hstop : idx = B
    · have hcond : (idx == B) = true := by simp [hstop]
      rw [rrLoop, if_pos hcond]
      exact ⟨rfl, fun j _ => rfl, htx, fun i _ => Or.inl rfl⟩
    · have hcond : ¬ ((idx == B) = true) := by simp [hstop]
      have hidxB : idx < B := by omega
      rw [rrLoop, if_neg hcond, hget]
      cases e with
      | none =>
        have hp' : p' = p := by
          cases hqq : p.txQueue <;> simp_all [CommsPlatform.getData]
        obtain ⟨ih1, ih2, ih3, ih4⟩ := rrLoop_spec B rest idx tx hidx htx
        refine ⟨by simp [ih1], fun j hj => ih2 j hj, ih3, ?_⟩
        intro i hi
        cases i with
        | zero => left; simp [hp']
        | succ n =>
          have := ih4 n (by simpa using hi)
          simpa using this
      | some e =>
        have hqueue : p.txQueue = e :: p'.txQueue := by
          cases hqq : p.txQueue with
          | nil => simp [CommsPlatform.getData, hqq] at hget
          | cons a t =>
            simp only [CommsPlatform.getData, hqq, Prod.mk.injEq,
              Option.some.injEq] at hget
            obtain ⟨rfl, hp'⟩ := hget
            simp [hqq, ← hp']
        have hset : (tx.set idx (some e)).length = B := by simp [htx]
        obtain ⟨ih1, ih2, ih3, ih4⟩ :=
          rrLoop_spec B rest (idx + 1) (tx.set idx (some e)) (by omega) hset
        refine ⟨by simp [ih1], ?_, ih3, ?_⟩
        · intro j hj
          rw [ih2 j (by omega)]
          rw [List.getD_eq_getElem?_getD, List.getElem?_set_ne (by omega),
            ← List.getD_eq_getElem?_getD]
        · intro i hi
          cases i with
          | zero =>
            right
            refine ⟨e, by simpa using hqueue, idx, le_refl _, hidxB, ?_⟩
            rw [ih2 idx (by omega)]
            simp [List.getD_eq_getElem?_getD,
              List.getElem?_set_self (by omega : idx < tx.length)]
          | succ n =>
            have := ih4 n (by simpa using hi)
            rcases this with h | ⟨e2, he2, b, hb1, hb2, hb3⟩
            · left; simpa using h
            · right
              exact ⟨e2, by simpa using he2, b, by omega, hb2, hb3⟩

lemma decorateRow_length (c : CommsCoordinator) (ps : List CommsPlatform)
    (row : List (Option Emission)) :
    (c.decorateRow ps row).length = row.length := by
  simp [decorateRow]

lemma decorateRow_getD_some (c : CommsCoordinator) (ps : List CommsPlatform)
    (row : List (Option Emission)) (b : Nat) (e : Emission)
    (hb : b < row.length) (he : row.getD b none = some e) :
    ∃ pos, (c.decorateRow ps row).getD b none = some (e.setBinPos b pos) := by
  have h1 : row[b]? = some (row[b]) := List.getElem?_eq_getElem hb
  rw [List.getD_eq_getElem?_getD, h1] at he
  simp only [Option.getD_some] at he
  unfold decorateRow
  rw [List.getD_eq_getElem?_getD, List.getElem?_mapIdx, h1, he]
  cases hp : ps[(List.indexOf e.sourceID c.platformIDs)]? with
  | none => exact ⟨none, by simp [hp]⟩
  | some p => exact ⟨some p.pos, by simp [hp]⟩

lemma getData_none (p : CommsPlatform) (p' : CommsPlatform)
    (h : p.getData = (none, p')) : p' = p := by
  cases hqq : p.txQueue <;> simp_all [CommsPlatform.getData]

lemma getData_some (p : CommsPlatform) (e : Emission) (p' : CommsPlatform)
    (h : p.getData = (some e, p')) : p.txQueue = e :: p'.txQueue := by
  cases hqq : p.txQueue with
  | nil => simp [CommsPlatform.getData, hqq] at h
  | cons a t =>
    simp only [CommsPlatform.getData, hqq, Prod.mk.injEq,
      Option.some.injEq] at h
    obtain ⟨rfl, hp'⟩ := h
    simp [hqq, ← hp']

/-- Single-drain guarantee of one coordinator step (any MAC): each
platform's transmit queue is either untouched or loses exactly its head,
and every drained packet appears (decorated with its bin index and source
position) in some bin of the returned vector. -/
lemma step_single_drain (c : CommsCoordinator) (ps : List CommsPlatform)
    (row : List (Option Emission)) (ps' : List CommsPlatform)
    (c' : CommsCoordinator) (h : c.step ps = .ok (row, ps', c')) :
    ps'.length = ps.length ∧
    ∀ i, i < ps.length →
      ((ps'.getD i default).txQueue = (ps.getD i default).txQueue ∨
       ∃ e, (ps.getD i default).txQueue = e :: (ps'.getD i default).txQueue ∧
         ∃ b, b < row.length ∧ ∃ pos,
           row.getD b none = some (e.setBinPos b pos)) := by
  by_cases hrr : c.mac = "rr"
  · rcases hsrr : c.stepRoundRobin ps with ⟨row0, ps2⟩
    rw [step, if_pos hrr, hsrr] at h
    simp only [Except.ok.injEq, Prod.mk.injEq] at h
    obtain ⟨hrow, hps', hc'⟩ := h
    subst hrow hps'
    have hspec := rrLoop_spec c.numFrequencyBins ps 0
      (List.replicate c.numFrequencyBins none) (Nat.zero_le _) (by simp)
    rw [stepRoundRobin] at hsrr
    rw [hsrr] at hspec
    simp only at hspec
    obtain ⟨hlen, hpre, hrowlen, hmain⟩ := hspec
    refine ⟨hlen, ?_⟩
    intro i hi
    rcases hmain i hi with hsame | ⟨e, he, b, hb0, hbB, hbin⟩
    · exact Or.inl hsame
    · right
      refine ⟨e, he, b, ?_, ?_⟩
      · rw [decorateRow_length, hrowlen]; exact hbB
      · exact decorateRow_getD_some c ps2 row0 b e (by omega) hbin
  · by_cases htd : c.mac = "tdma"
    · rw [step, if_neg hrr, if_pos htd, stepTDMA] at h
      by_cases hB : c.numFrequencyBins ≠ 1
      · rw [if_pos hB] at h; exact absurd h (by simp)
      · rw [if_neg hB] at h
        push_neg at hB
        cases hps : ps.get? c.tdmaIndex with
        | none => rw [hps] at h; exact absurd h (by simp)
        | some p =>
          rw [hps] at h
          rcases hget : p.getData with ⟨e, p'⟩
          simp only [hget, Except.ok.injEq, Prod.mk.injEq] at h
          obtain ⟨hrow, hps', hc'⟩ := h
          subst hrow hps'
          have hpsE : ps[c.tdmaIndex]? = some p := by
            rw [← List.get?_eq_getElem?]; exact hps
          have hidx : c.tdmaIndex < ps.length := (List.getElem?_eq_some.mp hpsE).1
          have hpval : ps.getD c.tdmaIndex default = p := by
            rw [List.getD_eq_getElem?_getD, hpsE]; rfl
          refine ⟨by simp, ?_⟩
          intro i hi
          by_cases hieq : i = c.tdmaIndex
          · subst hieq
            cases e with
            | none =>
              left
              have hp' : p' = p := getData_none p p' hget
              rw [hpval, List.getD_eq_getElem?_getD,
                List.getElem?_set_self (by omega), hp']
              rfl
            | some e =>
              right
              refine ⟨e, ?_, 0, ?_, ?_⟩
              · rw [hpval, List.getD_eq_getElem?_getD,
                  List.getElem?_set_self (by omega)]
                exact getData_some p e p' hget
              · rw [decorateRow_length]; simp
              · exact decorateRow_getD_some c (ps.set c.tdmaIndex p') [some e] 0 e
                  (by simp) (by rfl)
          · left
            rw [List.getD_eq_getElem?_getD, List.getElem?_set_ne (by omega),
              ← List.getD_eq_getElem?_getD]
    · by_cases hfd : c.mac = "fdma"
      · rw [step, if_neg hrr, if_neg htd, if_pos hfd, stepFDMA] at h
        by_cases hBlen : c.numFrequencyBins < ps.length
        · rw [if_pos hBlen] at h; exact absurd h (by simp)
        · rw [if_neg hBlen] at h
          simp only [Except.ok.injEq, Prod.mk.injEq] at h
          obtain ⟨hrow, hps', hc'⟩ := h
          subst hrow hps'
          refine ⟨by simp, ?_⟩
          intro i hi
          have hival : ps[i]? = some (ps[i]) := List.getElem?_eq_getElem hi
          have hpsi : ps.getD i default = ps[i] := by
            rw [List.getD_eq_getElem?_getD, hival]; rfl
          have hmapi : (ps.map (fun p => p.getData.2)).getD i default =
              (ps[i].getData).2 := by
            rw [List.getD_eq_getElem?_getD, List.getElem?_map, hival]; rfl
          rcases hget : (ps[i]).getData with ⟨e, p'⟩
          cases e with
          | none =>
            left
            rw [hmapi, hget, hpsi, getData_none _ _ hget]
          | some e =>
            right
            refine ⟨e, ?_, i, ?_, ?_⟩
            · rw [hmapi, hget, hpsi]
              exact getData_some _ e p' hget
            · rw [decorateRow_length]
              simp only [List.length_append, List.length_map,
                List.length_replicate]
              omega
            · refine decorateRow_getD_some _ _ _ i e ?_ ?_
              · simp only [List.length_append, List.length_map,
                  List.length_replicate]
                omega
              · rw [List.getD_eq_getElem?_getD,
                  List.getElem?_append_left (by simpa using hi),
                  List.getElem?_map, hival]
                simp [hget]
      · rw [step, if_neg hrr, if_neg htd, if_neg hfd] at h
        exact absurd h (by simp)

end CommsCoordinator

namespace Environment

lemma phaseKinematics_coordinator (env : Environment) (dt : ℚ) :
    (env.phaseKinematics dt).coordinator = env.coordinator := rfl

lemma preCoordinator_coordinator (env : Environment) (dt : ℚ) :
    (env.preCoordinator dt).coordinator = env.coordinator := rfl

lemma updatePlatformConnectivity_coordinator (env : Environment) :
    env.updatePlatformConnectivity.coordinator = env.coordinator := rfl

lemma phaseKinematics_commsPlatforms_length (env : Environment) (dt : ℚ) :
    (env.phaseKinematics dt).commsPlatforms.length =
      env.commsPlatforms.length := by
  simp [phaseKinematics]

lemma updatePlatformConnectivity_commsPlatforms_length (env : Environment) :
    env.updatePlatformConnectivity.commsPlatforms.length =
      env.commsPlatforms.length := by
  simp [updatePlatformConnectivity]

lemma preCoordinator_commsPlatforms_length (env : Environment) (dt : ℚ) :
    (env.preCoordinator dt).commsPlatforms.length =
      env.commsPlatforms.length := by
  show (env.phaseKinematics dt).updatePlatformConnectivity.commsPlatforms.length
      = env.commsPlatforms.length
  rw [updatePlatformConnectivity_commsPlatforms_length,
    phaseKinematics_commsPlatforms_length]

/-- Inversion of a successful `Environment.init`: the shape and content of
every environment field at construction time, and the validated bounds. -/
lemma init_ok_inv {adj : List (List Bool)} {cs : List CommsPlatform}
    {ds : List DisruptorPlatform} {B delay : Nat} {mac : String} {window : ℚ}
    {env : Environment}
    (h : Environment.init adj cs ds B delay mac window = .ok env) :
    env.coordinator = { platformIDs := cs.map (·.id), numFrequencyBins := B,
                        mac := mac, tdmaIndex := 0 } ∧
    env.commsPlatforms.length = cs.length ∧
    env.disruptorPlatforms.length = ds.length ∧
    env.adjMatrix = adj ∧
    env.dataQueue = List.replicate delay (emptyGrid (1 + ds.length) B) ∧
    env.trafficTx = List.replicate cs.length (List.replicate cs.length []) ∧
    env.trafficRx = List.replicate cs.length (List.replicate cs.length []) ∧
    env.windowSize = window ∧
    env.elapsedTime = 0 ∧
    env.numFrequencyBins = B ∧
    env.disruptorDelay = delay ∧
    1 ≤ delay ∧ 1 ≤ B ∧ 0 ≤ window ∧
    (cs.map (·.id)).Nodup ∧ (ds.map (·.id)).Nodup := by
  unfold Environment.init at h
  simp only [CommsCoordinator.init] at h
  split_ifs at h
  simp only [Except.ok.injEq] at h
  subst h
  simp_all [updatePlatformConnectivity]
  omega

lemma postCoordinator_noDisruptors (env : Environment)
    (row0 : List (Option Emission)) (cs : List CommsPlatform)
    (coord : CommsCoordinator) (samples : List (List Nat))
    (hD : env.disruptorPlatforms = []) :
    env.postCoordinator row0 cs coord samples =
      (let stamped : Grid := stampGrid env.elapsedTime [row0]
       let st : FanState := fanGrid env.adjMatrix (cs.map (·.id)) [] stamped
         { txData := List.replicate cs.length [], trafficTx := env.trafficTx }
       let env1 : Environment := { env with
         commsPlatforms := cs.mapIdx
           (fun i (p : CommsPlatform) => p.putData (st.txData.getD i [])),
         coordinator := coord,
         disruptorPlatforms := [],
         data := stamped,
         dataQueue := env.dataQueue.tail ++ [stamped],
         trafficTx := st.trafficTx,
         trafficRx := rxAccount
           ((cs.mapIdx (fun i (p : CommsPlatform) =>
              p.putData (st.txData.getD i []))).map (·.id))
           st.txData env.trafficRx }
       if env.windowSize > 0 then
         { env1 with
           trafficTx := pruneMatrix env.elapsedTime env.windowSize env1.trafficTx,
           trafficRx := pruneMatrix env.elapsedTime env.windowSize env1.trafficRx }
       else env1) := by
  obtain ⟨cps, dps, B, delay, coord0, adj, data, dq, w, tx, rx, t⟩ := env
  simp only [Environment.disruptorPlatforms] at hD
  subst hD
  rfl

lemma putData_id (p : CommsPlatform) (batch : List Emission) :
    (p.putData batch).id = p.id := by
  rw [CommsPlatform.putData]
  by_cases h : batch.any Emission.isToken
  · rw [if_pos h]
  · rw [if_neg h]
    exact (CommsPlatform.putDataLoop_const batch p).1

lemma putData_map_id (cs : List CommsPlatform) (f : Nat → List Emission) :
    (cs.mapIdx (fun i (p : CommsPlatform) => p.putData (f i))).map (·.id) =
      cs.map (·.id) := by
  induction cs generalizing f with
  | nil => rfl
  | cons p rest ih =>
    rw [List.mapIdx_cons, List.map_cons, List.map_cons, putData_id,
      ih (fun i => f (i + 1))]

lemma preCoordinator_fields (env : Environment) (dt : ℚ) :
    (env.preCoordinator dt).disruptorPlatforms.length =
      env.disruptorPlatforms.length ∧
    (env.preCoordinator dt).adjMatrix = env.adjMatrix ∧
    (env.preCoordinator dt).trafficTx = env.trafficTx ∧
    (env.preCoordinator dt).trafficRx = env.trafficRx ∧
    (env.preCoordinator dt).windowSize = env.windowSize := by
  obtain ⟨cps, dps, B, delay, coord0, adj, data, dq, w, tx, rx, t⟩ := env
  refine ⟨?_, rfl, rfl, rfl, rfl⟩
  simp [preCoordinator, phaseKinematics, updatePlatformConnectivity]

lemma pruneMatrix_shape {m : TrafficMatrix} {C : Nat} (t w : ℚ)
    (hm : TrafficShape m C) : TrafficShape (pruneMatrix t w m) C := by
  obtain ⟨h1, h2⟩ := hm
  refine ⟨by rw [pruneMatrix]; simpa using h1, ?_⟩
  intro row hrow
  rw [pruneMatrix, List.mem_map] at hrow
  obtain ⟨r0, hr0, rfl⟩ := hrow
  simpa using h2 r0 hr0

lemma step_noDisruptors_inv (env env' : Environment) (dt : ℚ)
    (samples : List (List Nat))
    (hInv : NoDisruptorInvariant env)
    (hstep : env.step dt samples = .ok env') :
    NoDisruptorInvariant env' ∧
    env'.numCommsPlatforms = env.numCommsPlatforms := by
  obtain ⟨hD, hAdj, hShape, hEq⟩ := hInv
  rw [Environment.step] at hstep
  rcases hc : (env.preCoordinator dt).coordinator.step
      (env.preCoordinator dt).commsPlatforms with _ | ⟨row0, cs, coord⟩
  · rw [hc] at hstep; exact absurd hstep (by simp)
  · rw [hc] at hstep
    simp only [Except.ok.injEq] at hstep
    obtain ⟨h1, h2, h3, h4, h5⟩ := preCoordinator_fields env dt
    have hD1 : (env.preCoordinator dt).disruptorPlatforms = [] := by
      rw [← List.length_eq_zero]
      rw [h1, hD]
      rfl
    have hcs : cs.length = env.commsPlatforms.length := by
      have := (CommsCoordinator.step_single_drain _ _ _ _ _ hc).1
      rw [this, preCoordinator_commsPlatforms_length]
    set envp := env.preCoordinator dt with henvp
    rw [postCoordinator_noDisruptors envp row0 cs coord samples hD1] at hstep
    simp only at hstep
    set C := env.numCommsPlatforms with hC
    have hcsl : (cs.map (·.id)).length = C := by
      rw [List.length_map, hcs]; rfl
    have hAdj1 : envp.adjMatrix = allTrue C := by rw [h2, hAdj]
    have hTx1 : TrafficShape envp.trafficTx C := by rw [h3]; exact hShape
    have hRxTx : envp.trafficRx = envp.trafficTx := by rw [h3, h4, hEq]
    set st := fanGrid envp.adjMatrix (cs.map (·.id)) []
      (stampGrid envp.elapsedTime [row0])
      { txData := List.replicate cs.length [], trafficTx := envp.trafficTx }
      with hstdef
    have hbal : rxAccount
        ((cs.mapIdx (fun i (p : CommsPlatform) =>
          p.putData (st.txData.getD i []))).map (·.id))
        st.txData envp.trafficRx = st.trafficTx := by
      have hcsC : cs.length = C := by
        rw [hcs]; rfl
      rw [putData_map_id cs (fun i => st.txData.getD i []), hRxTx, hstdef,
        hAdj1, hcsC]
      exact fan_rx_balance C (cs.map (·.id)) hcsl _ envp.trafficTx hTx1
    have hstShape : TrafficShape st.trafficTx C := by
      rw [hstdef, hAdj1, fanGrid_eq_foldl]
      have := (fanGrid_spec (allTrue C) (cs.map (·.id)) []
        (gridEmissions (stampGrid envp.elapsedTime [row0]))
        { txData := List.replicate cs.length [], trafficTx := envp.trafficTx }
        (by rw [hcsl]; exact hTx1) (by simp)).1
      rw [hcsl] at this
      exact this
    subst hstep
    by_cases hw : envp.windowSize > 0
    · rw [if_pos hw]
      refine ⟨⟨rfl, ?_, ?_, ?_⟩, ?_⟩
      · show envp.adjMatrix = allTrue (cs.mapIdx _).length
        rw [List.length_mapIdx, hcs, hAdj1]
        rfl
      · show TrafficShape (pruneMatrix envp.elapsedTime envp.windowSize
          st.trafficTx) (cs.mapIdx _).length
        rw [List.length_mapIdx, hcs]
        exact pruneMatrix_shape _ _ hstShape
      · show pruneMatrix envp.elapsedTime envp.windowSize
            (rxAccount
              ((cs.mapIdx (fun i (p : CommsPlatform) =>
                p.putData (st.txData.getD i []))).map (·.id))
              st.txData envp.trafficRx) =
          pruneMatrix envp.elapsedTime envp.windowSize st.trafficTx
        rw [hbal]
      · show (cs.mapIdx _).length = C
        rw [List.length_mapIdx, hcs]; rfl
    · rw [if_neg hw]
      refine ⟨⟨rfl, ?_, ?_, ?_⟩, ?_⟩
      · show envp.adjMatrix = allTrue (cs.mapIdx _).length
        rw [List.length_mapIdx, hcs, hAdj1]
        rfl
      · show TrafficShape st.trafficTx (cs.mapIdx _).length
        rw [List.length_mapIdx, hcs]
        exact hstShape
      · show rxAccount
            ((cs.mapIdx (fun i (p : CommsPlatform) =>
              p.putData (st.txData.getD i []))).map (·.id))
            st.txData envp.trafficRx = st.trafficTx
        exact hbal
      · show (cs.mapIdx _).length = C
        rw [List.length_mapIdx, hcs]; rfl

lemma run_noDisruptors_inv (acts : List Action) :
    ∀ (env env' : Environment), NoDisruptorInvariant env →
      acts.all (benignAdj env.numCommsPlatforms) = true →
      env.run acts = .ok env' →
      NoDisruptorInvariant env' ∧
      env'.numCommsPlatforms = env.numCommsPlatforms := by
  induction acts with
  | nil =>
    intro env env' hInv _ hrun
    rw [run] at hrun
    simp only [Except.ok.injEq] at hrun
    subst hrun
    exact ⟨hInv, rfl⟩
  | cons a rest ih =>
    intro env env' hInv hall hrun
    rw [List.all_cons, Bool.and_eq_true] at hall
    obtain ⟨ha, hrest⟩ := hall
    rw [run] at hrun
    rcases hap : env.applyAction a with _ | env1
    · rw [hap] at hrun; exact absurd hrun (by simp)
    · rw [hap] at hrun
      have hmid : NoDisruptorInvariant env1 ∧
          env1.numCommsPlatforms = env.numCommsPlatforms := by
        obtain ⟨hD, hAdj, hShape, hEq⟩ := hInv
        cases a with
        | txData i payload dest =>
          rw [applyAction] at hap
          simp only [Except.ok.injEq] at hap
          subst hap
          have hlen : (List.modify (fun p => p.txData payload dest) i
              env.commsPlatforms).length = env.commsPlatforms.length :=
            List.length_modify ..
          exact ⟨⟨hD, by simpa [numCommsPlatforms, hlen] using hAdj,
            by simpa [numCommsPlatforms, hlen] using hShape, hEq⟩,
            by simp only [numCommsPlatforms]; exact hlen⟩
        | rxData i =>
          rw [applyAction] at hap
          simp only [Except.ok.injEq] at hap
          subst hap
          have hlen : (List.modify (fun p => (p.rxData).2) i
              env.commsPlatforms).length = env.commsPlatforms.length :=
            List.length_modify ..
          exact ⟨⟨hD, by simpa [numCommsPlatforms, hlen] using hAdj,
            by simpa [numCommsPlatforms, hlen] using hShape, hEq⟩,
            by simp only [numCommsPlatforms]; exact hlen⟩
        | setAdjMatrix m =>
          rw [applyAction] at hap
          simp only [Except.ok.injEq] at hap
          subst hap
          have hm : m = allTrue env.numCommsPlatforms := by
            rw [benignAdj] at ha
            exact eq_of_beq ha
          exact ⟨⟨hD, hm, hShape, hEq⟩, rfl⟩
        | step dt samples =>
          rw [applyAction] at hap
          exact step_noDisruptors_inv env env1 dt samples
            ⟨hD, hAdj, hShape, hEq⟩ hap
      obtain ⟨hInv1, hlen1⟩ := hmid
      obtain ⟨hInv', hlen'⟩ := ih env1 env' hInv1 (by rw [hlen1]; exact hrest)
        hrun
      exact ⟨hInv', by rw [hlen', hlen1]⟩


lemma postCoordinator_eq (env : Environment) (row0 : List (Option Emission))
    (cs : List CommsPlatform) (coord : CommsCoordinator)
    (samples : List (List Nat)) :
    env.postCoordinator row0 cs coord samples =
      (let theEnv : Grid := env.dataQueue.headD
         (emptyGrid (1 + env.disruptorPlatforms.length) env.numFrequencyBins)
       let obs : List DisruptorPlatform := env.disruptorPlatforms.mapIdx
         (fun k d => { d with env := some (filterForDisruptor env.adjMatrix
            (cs.map (·.id)) (env.disruptorPlatforms.map (·.id)) k theEnv) })
       let pairs : List (List (Option Emission) × DisruptorPlatform) :=
         obs.mapIdx (fun k (d : DisruptorPlatform) =>
           d.getDisruptions (samples.getD k []))
       let stamped : Grid := stampGrid env.elapsedTime
         (row0 :: pairs.map Prod.fst)
       let st : FanState := fanGrid env.adjMatrix (cs.map (·.id))
         ((pairs.map Prod.snd).map (·.id)) stamped
         { txData := List.replicate cs.length [], trafficTx := env.trafficTx }
       let cps : List CommsPlatform := cs.mapIdx
         (fun i (p : CommsPlatform) => p.putData (st.txData.getD i []))
       let env1 : Environment := { env with
         commsPlatforms := cps,
         coordinator := coord,
         disruptorPlatforms := pairs.map Prod.snd,
         data := stamped,
         dataQueue := env.dataQueue.tail ++ [stamped],
         trafficTx := st.trafficTx,
         trafficRx := rxAccount (cps.map (·.id)) st.txData env.trafficRx }
       if env.windowSize > 0 then
         { env1 with
           trafficTx := pruneMatrix env.elapsedTime env.windowSize
             env1.trafficTx,
           trafficRx := pruneMatrix env.elapsedTime env.windowSize
             env1.trafficRx }
       else env1) := by
  obtain ⟨cps0, dps, B, delay, coord0, adj, data0, dq, w, tx, rx, t⟩ := env
  rfl

lemma preCoordinator_elapsedTime (env : Environment) (dt : ℚ) :
    (env.preCoordinator dt).elapsedTime = env.elapsedTime + dt := rfl

lemma step_window_inv (env env' : Environment) (dt : ℚ)
    (samples : List (List Nat)) (hdt : 0 ≤ dt)
    (hInv : WindowInvariant env)
    (hstep : env.step dt samples = .ok env') :
    WindowInvariant env' ∧ env'.windowSize = env.windowSize ∧
    env'.numCommsPlatforms = env.numCommsPlatforms := by
  obtain ⟨hShTx, hShRx, hOkTx, hOkRx, hWin⟩ := hInv
  rw [Environment.step] at hstep
  rcases hc : (env.preCoordinator dt).coordinator.step
      (env.preCoordinator dt).commsPlatforms with _ | ⟨row0, cs, coord⟩
  · rw [hc] at hstep; exact absurd hstep (by simp)
  · rw [hc] at hstep
    simp only [Except.ok.injEq] at hstep
    obtain ⟨h1, h2, h3, h4, h5⟩ := preCoordinator_fields env dt
    have hcs : cs.length = env.commsPlatforms.length := by
      have := (CommsCoordinator.step_single_drain _ _ _ _ _ hc).1
      rw [this, preCoordinator_commsPlatforms_length]
    set envp := env.preCoordinator dt with henvp
    rw [postCoordinator_eq envp row0 cs coord samples] at hstep
    simp only at hstep
    set C := env.numCommsPlatforms with hC
    have hcsC : cs.length = C := by rw [hcs]; rfl
    have hcsl : (cs.map (·.id)).length = C := by
      rw [List.length_map, hcsC]
    set E' := envp.elapsedTime with hE'
    have hEE : env.elapsedTime ≤ E' := by
      rw [hE', henvp, preCoordinator_elapsedTime]
      linarith
    set pairs : List (List (Option Emission) × DisruptorPlatform) :=
      (envp.disruptorPlatforms.mapIdx
        (fun k d => { d with env := some (filterForDisruptor envp.adjMatrix
           (cs.map (·.id)) (envp.disruptorPlatforms.map (·.id)) k
           (envp.dataQueue.headD
             (emptyGrid (1 + envp.disruptorPlatforms.length)
               envp.numFrequencyBins))) })).mapIdx
        (fun k (d : DisruptorPlatform) =>
          d.getDisruptions (samples.getD k [])) with hpairs
    set stamped : Grid := stampGrid E' (row0 :: pairs.map Prod.fst)
      with hstamped
    set st : FanState := fanGrid envp.adjMatrix (cs.map (·.id))
      ((pairs.map Prod.snd).map (·.id)) stamped
      { txData := List.replicate cs.length [], trafficTx := envp.trafficTx }
      with hstdef
    have hfan := fanGrid_spec envp.adjMatrix (cs.map (·.id))
      ((pairs.map Prod.snd).map (·.id)) (gridEmissions stamped)
      { txData := List.replicate cs.length [], trafficTx := envp.trafficTx }
      (by rw [hcsl, h3]; exact hShTx) (by simp)
    rw [← fanGrid_eq_foldl, ← hstdef] at hfan
    obtain ⟨hfan1, hfan2, hfan3, hfan4⟩ := hfan
    rw [hcsl] at hfan1 hfan2
    have hstTxOk : MatrixOk E' st.trafficTx := by
      intro s d
      by_cases hrange : s < C ∧ d < C
      · obtain ⟨hs, hd⟩ := hrange
        rw [hfan3 s d (by rw [hcsl]; exact hs) (by rw [hcsl]; exact hd)]
        refine stampedSorted_append hEE ?_ ?_
        · rw [h3]; exact hOkTx s d
        · intro y hy
          rw [List.mem_flatMap] at hy
          obtain ⟨e, he, hye⟩ := hy
          rw [contribTx_self (cs.map (·.id)) e s d y hye]
          exact mem_gridEmissions_stampGrid he
      · rw [get2_out_of_range hfan1 (by omega)]
        exact stampedSorted_nil E'
    have hbatchStamp : ∀ d, ∀ y ∈ st.txData.getD d [],
        y.emissionTime = some E' := by
      intro d y hy
      by_cases hd : d < C
      · rw [hfan4 d (by rw [hcsl]; exact hd), getD_replicate_nil,
          List.nil_append] at hy
        rw [List.mem_flatMap] at hy
        obtain ⟨e, he, hye⟩ := hy
        rw [contribBatch_self envp.adjMatrix (cs.map (·.id))
          ((pairs.map Prod.snd).map (·.id)) e d y hye]
        exact mem_gridEmissions_stampGrid he
      · rw [List.getD_eq_default _ _ (by rw [hfan2]; omega)] at hy
        exact absurd hy (List.not_mem_nil y)
    set rx2 := rxAccount
      ((cs.mapIdx (fun i (p : CommsPlatform) =>
        p.putData (st.txData.getD i []))).map (·.id))
      st.txData envp.trafficRx with hrx2
    rw [putData_map_id cs (fun i => st.txData.getD i [])] at hrx2
    have hrxacc := rxAccount_spec (cs.map (·.id)) st.txData envp.trafficRx
      (by rw [hcsl, h4]; exact hShRx)
    rw [← hrx2] at hrxacc
    obtain ⟨hrx1, hrxg⟩ := hrxacc
    rw [hcsl] at hrx1
    have hrxOk : MatrixOk E' rx2 := by
      intro s d
      by_cases hrange : s < C ∧ d < C
      · obtain ⟨hs, hd⟩ := hrange
        rw [hrxg s d (by rw [hcsl]; exact hs) (by rw [hcsl]; exact hd)]
        refine stampedSorted_append hEE ?_ ?_
        · rw [h4]; exact hOkRx s d
        · intro y hy
          by_cases hdis : ((st.txData.getD d []).any
              (fun e => e.sourceType == 1)) = false
          · rw [if_pos hdis] at hy
            exact hbatchStamp d y (List.mem_of_mem_filter hy)
          · rw [if_neg hdis] at hy
            exact absurd hy (List.not_mem_nil y)
      · rw [get2_out_of_range hrx1 (by omega)]
        exact stampedSorted_nil E'
    subst hstep
    by_cases hw : envp.windowSize > 0
    · rw [if_pos hw]
      have hw0 : (0 : ℚ) < env.windowSize := by rw [← h5]; exact hw
      refine ⟨⟨?_, ?_, ?_, ?_, ?_⟩, ?_, ?_⟩
      · show TrafficShape (pruneMatrix E' envp.windowSize st.trafficTx)
          (cs.mapIdx _).length
        rw [List.length_mapIdx, hcsC]
        exact pruneMatrix_shape _ _ hfan1
      · show TrafficShape (pruneMatrix E' envp.windowSize rx2)
          (cs.mapIdx _).length
        rw [List.length_mapIdx, hcsC]
        exact pruneMatrix_shape _ _ hrx1
      · intro s d
        show StampedSorted E'
          (get2 (pruneMatrix E' envp.windowSize st.trafficTx) s d)
        rw [get2_pruneMatrix]
        exact stampedSorted_sublist (pruneList_sublist _ _ _) (hstTxOk s d)
      · intro s d
        show StampedSorted E'
          (get2 (pruneMatrix E' envp.windowSize rx2) s d)
        rw [get2_pruneMatrix]
        exact stampedSorted_sublist (pruneList_sublist _ _ _) (hrxOk s d)
      · intro _
        constructor
        · intro s d e he
          rw [get2_pruneMatrix] at he
          exact pruneList_within E' envp.windowSize _ (hstTxOk s d) e he
        · intro s d e he
          rw [get2_pruneMatrix] at he
          exact pruneList_within E' envp.windowSize _ (hrxOk s d) e he
      · show envp.windowSize = env.windowSize
        exact h5
      · show (cs.mapIdx _).length = C
        rw [List.length_mapIdx, hcsC]
    · rw [if_neg hw]
      refine ⟨⟨?_, ?_, ?_, ?_, ?_⟩, ?_, ?_⟩
      · show TrafficShape st.trafficTx (cs.mapIdx _).length
        rw [List.length_mapIdx, hcsC]
        exact hfan1
      · show TrafficShape rx2 (cs.mapIdx _).length
        rw [List.length_mapIdx, hcsC]
        exact hrx1
      · exact hstTxOk
      · exact hrxOk
      · intro hcon
        exact absurd (by rw [h5]; exact hcon) hw
      · show envp.windowSize = env.windowSize
        exact h5
      · show (cs.mapIdx _).length = C
        rw [List.length_mapIdx, hcsC]

lemma run_window_inv (acts : List Action) :
    ∀ (env env' : Environment), WindowInvariant env →
      acts.all nonnegSteps = true →
      env.run acts = .ok env' →
      WindowInvariant env' ∧ env'.windowSize = env.windowSize := by
  induction acts with
  | nil =>
    intro env env' hInv _ hrun
    rw [run] at hrun
    simp only [Except.ok.injEq] at hrun
    subst hrun
    exact ⟨hInv, rfl⟩
  | cons a rest ih =>
    intro env env' hInv hall hrun
    rw [List.all_cons, Bool.and_eq_true] at hall
    obtain ⟨ha, hrest⟩ := hall
    rw [run] at hrun
    rcases hap : env.applyAction a with _ | env1
    · rw [hap] at hrun; exact absurd hrun (by simp)
    · rw [hap] at hrun
      have hmid : WindowInvariant env1 ∧ env1.windowSize = env.windowSize := by
        obtain ⟨hShTx, hShRx, hOkTx, hOkRx, hWin⟩ := hInv
        cases a with
        | txData i payload dest =>
          rw [applyAction] at hap
          simp only [Except.ok.injEq] at hap
          subst hap
          have hlen : (List.modify (fun p => p.txData payload dest) i
              env.commsPlatforms).length = env.commsPlatforms.length :=
            List.length_modify ..
          exact ⟨⟨by simpa [numCommsPlatforms, hlen] using hShTx,
            by simpa [numCommsPlatforms, hlen] using hShRx,
            hOkTx, hOkRx, hWin⟩, rfl⟩
        | rxData i =>
          rw [applyAction] at hap
          simp only [Except.ok.injEq] at hap
          subst hap
          have hlen : (List.modify (fun p => (p.rxData).2) i
              env.commsPlatforms).length = env.commsPlatforms.length :=
            List.length_modify ..
          exact ⟨⟨by simpa [numCommsPlatforms, hlen] using hShTx,
            by simpa [numCommsPlatforms, hlen] using hShRx,
            hOkTx, hOkRx, hWin⟩, rfl⟩
        | setAdjMatrix m =>
          rw [applyAction] at hap
          simp only [Except.ok.injEq] at hap
          subst hap
          exact ⟨⟨hShTx, hShRx, hOkTx, hOkRx, hWin⟩, rfl⟩
        | step dt samples =>
          rw [applyAction] at hap
          have hdt : (0 : ℚ) ≤ dt := by
            rw [nonnegSteps] at ha
            exact of_decide_eq_true ha
          obtain ⟨hi, hw, -⟩ := step_window_inv env env1 dt samples hdt
            ⟨hShTx, hShRx, hOkTx, hOkRx, hWin⟩ hap
          exact ⟨hi, hw⟩
      obtain ⟨hInv1, hw1⟩ := hmid
      obtain ⟨hInv', hw'⟩ := ih env1 env' hInv1 hrest hrun
      exact ⟨hInv', by rw [hw', hw1]⟩


lemma preCoordinator_dataQueue (env : Environment) (dt : ℚ) :
    (env.preCoordinator dt).dataQueue = env.dataQueue := rfl

lemma preCoordinator_numFrequencyBins (env : Environment) (dt : ℚ) :
    (env.preCoordinator dt).numFrequencyBins = env.numFrequencyBins := rfl

lemma step_dataQueue (env env1 : Environment) (dt : ℚ)
    (samples : List (List Nat)) (h : env.step dt samples = .ok env1) :
    env1.dataQueue = env.dataQueue.tail ++ [env1.data] := by
  rw [Environment.step] at h
  rcases hc : (env.preCoordinator dt).coordinator.step
      (env.preCoordinator dt).commsPlatforms with _ | ⟨row0, cs, coord⟩
  · rw [hc] at h; exact absurd h (by simp)
  · rw [hc] at h
    simp only [Except.ok.injEq] at h
    rw [postCoordinator_eq] at h
    simp only at h
    subst h
    by_cases hw : (env.preCoordinator dt).windowSize > 0
    · rw [if_pos hw]
      rfl
    · rw [if_neg hw]
      rfl


lemma step_observe (env env1 : Environment) (dt : ℚ)
    (samples : List (List Nat)) (h : env.step dt samples = .ok env1)
    (k : Nat) (hk : k < env.disruptorPlatforms.length) :
    (env1.disruptorPlatforms.getD k default).env =
      some (filterForDisruptor env1.adjMatrix env1.commsPlatformIDs
        env1.disruptorPlatformIDs k
        (env.dataQueue.headD
          (emptyGrid (1 + env.disruptorPlatforms.length)
            env.numFrequencyBins))) := by
  rw [Environment.step] at h
  rcases hc : (env.preCoordinator dt).coordinator.step
      (env.preCoordinator dt).commsPlatforms with _ | ⟨row0, cs, coord⟩
  · rw [hc] at h; exact absurd h (by simp)
  · rw [hc] at h
    simp only [Except.ok.injEq] at h
    set envp := env.preCoordinator dt with henvp
    rw [postCoordinator_eq] at h
    simp only at h
    obtain ⟨hdlen0, -, -, -, -⟩ := preCoordinator_fields env dt
    have hdlen : envp.disruptorPlatforms.length =
        env.disruptorPlatforms.length := hdlen0
    have hkp : k < envp.disruptorPlatforms.length := by
      rw [hdlen]; exact hk
    set theEnv : Grid := envp.dataQueue.headD
      (emptyGrid (1 + envp.disruptorPlatforms.length) envp.numFrequencyBins)
      with htheEnv
    set obs : List DisruptorPlatform := envp.disruptorPlatforms.mapIdx
      (fun j d => { d with env := some (filterForDisruptor envp.adjMatrix
        (cs.map (·.id)) (envp.disruptorPlatforms.map (·.id)) j theEnv) })
      with hobs
    set pairs : List (List (Option Emission) × DisruptorPlatform) :=
      obs.mapIdx (fun j (d : DisruptorPlatform) =>
        d.getDisruptions (samples.getD j [])) with hpairsdef
    have hobslen : obs.length = envp.disruptorPlatforms.length := by
      rw [hobs, List.length_mapIdx]
    have hpairslen : pairs.length = envp.disruptorPlatforms.length := by
      rw [hpairsdef, List.length_mapIdx, hobslen]
    have hdpfield : env1.disruptorPlatforms = pairs.map Prod.snd := by
      subst h
      by_cases hw : envp.windowSize > 0
      · rw [if_pos hw]
      · rw [if_neg hw]
    have hadjfield : env1.adjMatrix = envp.adjMatrix := by
      subst h
      by_cases hw : envp.windowSize > 0
      · rw [if_pos hw]
      · rw [if_neg hw]
    have hcIDs : env1.commsPlatformIDs = cs.map (·.id) := by
      have hcpfield : env1.commsPlatforms = cs.mapIdx
          (fun i (p : CommsPlatform) => p.putData
            (((fanGrid envp.adjMatrix (cs.map (·.id))
              ((pairs.map Prod.snd).map (·.id))
              (stampGrid envp.elapsedTime (row0 :: pairs.map Prod.fst))
              { txData := List.replicate cs.length [],
                trafficTx := envp.trafficTx }).txData).getD i [])) := by
        subst h
        by_cases hw : envp.windowSize > 0
        · rw [if_pos hw]
        · rw [if_neg hw]
      rw [commsPlatformIDs, hcpfield]
      exact putData_map_id cs _
    have hdIDs : env1.disruptorPlatformIDs =
        envp.disruptorPlatforms.map (·.id) := by
      rw [disruptorPlatformIDs, hdpfield, List.map_map, hpairsdef]
      rw [mapIdx_map_proj _ (fun d : DisruptorPlatform => d.id) obs
        (fun j (d : DisruptorPlatform) =>
          d.getDisruptions (samples.getD j [])) (fun _ _ => rfl)]
      rw [hobs]
      exact mapIdx_map_proj _ _ _ _ (fun _ _ => rfl)
    rw [hdpfield, hcIDs, hdIDs, hadjfield]
    rw [getD_map_of_lt2 pairs Prod.snd k
      (by rw [hpairslen]; exact hkp) default ([], default)]
    rw [hpairsdef]
    rw [getD_mapIdx_of_lt2 obs _ k (by rw [hobslen]; exact hkp) _ default]
    rw [hobs]
    rw [getD_mapIdx_of_lt2 envp.disruptorPlatforms _ k hkp _ default]
    show some (filterForDisruptor envp.adjMatrix (cs.map (·.id))
      (envp.disruptorPlatforms.map (·.id)) k theEnv) = _
    have hgrid : theEnv = env.dataQueue.headD
        (emptyGrid (1 + env.disruptorPlatforms.length)
          env.numFrequencyBins) := by
      rw [htheEnv,
        show envp.dataQueue = env.dataQueue from rfl,
        show envp.numFrequencyBins = env.numFrequencyBins from rfl, hdlen]
    rw [hgrid]

lemma runH_append (acts1 : List Action) :
    ∀ (acts2 : List Action) (env : Environment),
      env.runH (acts1 ++ acts2) =
        (match env.runH acts1 with
         | .error m => .error m
         | .ok (env1, h1) =>
           (match env1.runH acts2 with
            | .error m => .error m
            | .ok (env2, h2) => .ok (env2, h1 ++ h2))) := by
  induction acts1 with
  | nil =>
    intro acts2 env
    rw [List.nil_append]
    rcases h : env.runH acts2 with _ | ⟨env2, h2⟩
    · simp [Environment.runH, h]
    · simp [Environment.runH, h]
  | cons a rest ih =>
    intro acts2 env
    rw [List.cons_append, runH, runH]
    rcases ha : env.applyAction a with _ | env1
    · rfl
    · simp only []
      rw [ih acts2 env1]
      rcases h1 : env1.runH rest with _ | ⟨envM, hM⟩
      · rfl
      · simp only []
        rcases h2 : envM.runH acts2 with _ | ⟨envF, hF⟩
        · rfl
        · simp only []
          rw [List.append_assoc]

lemma runH_queue_inv (G0 : Grid) (d : Nat) (hd : 1 ≤ d)
    (acts : List Action) :
    ∀ (env envN : Environment) (H hist : List Grid),
      env.dataQueue = (List.replicate d G0 ++ H).drop H.length →
      env.runH acts = .ok (envN, hist) →
      envN.dataQueue =
        (List.replicate d G0 ++ (H ++ hist)).drop (H ++ hist).length := by
  induction acts with
  | nil =>
    intro env envN H hist hq hrun
    rw [runH] at hrun
    simp only [Except.ok.injEq, Prod.mk.injEq] at hrun
    obtain ⟨rfl, rfl⟩ := hrun
    simpa using hq
  | cons a rest ih =>
    intro env envN H hist hq hrun
    rw [runH] at hrun
    rcases ha : env.applyAction a with _ | env1
    · rw [ha] at hrun; exact absurd hrun (by simp)
    · rw [ha] at hrun
      simp only [] at hrun
      rcases hr : env1.runH rest with _ | ⟨envM, hM⟩
      · rw [hr] at hrun; exact absurd hrun (by simp)
      · rw [hr] at hrun
        simp only [Except.ok.injEq, Prod.mk.injEq] at hrun
        obtain ⟨rfl, rfl⟩ := hrun
        cases a with
        | txData i payload dest =>
          rw [applyAction] at ha
          simp only [Except.ok.injEq] at ha
          have hq1 : env1.dataQueue =
              (List.replicate d G0 ++ H).drop H.length := by
            rw [← ha]; exact hq
          simpa using ih env1 envM H hM hq1 hr
        | rxData i =>
          rw [applyAction] at ha
          simp only [Except.ok.injEq] at ha
          have hq1 : env1.dataQueue =
              (List.replicate d G0 ++ H).drop H.length := by
            rw [← ha]; exact hq
          simpa using ih env1 envM H hM hq1 hr
        | setAdjMatrix m =>
          rw [applyAction] at ha
          simp only [Except.ok.injEq] at ha
          have hq1 : env1.dataQueue =
              (List.replicate d G0 ++ H).drop H.length := by
            rw [← ha]; exact hq
          simpa using ih env1 envM H hM hq1 hr
        | step dt samples =>
          have hstep : env.step dt samples = .ok env1 := ha
          have hq1 : env1.dataQueue =
              (List.replicate d G0 ++ (H ++ [env1.data])).drop
                (H ++ [env1.data]).length := by
            rw [step_dataQueue env env1 dt samples hstep, hq,
              tail_drop_append _ _ _ (by simp; omega)]
            rw [← List.append_assoc]
            simp
          have := ih env1 envM (H ++ [env1.data]) hM hq1 hr
          rw [this]
          simp

lemma step_disruptor_length (env env1 : Environment) (dt : ℚ)
    (samples : List (List Nat)) (h : env.step dt samples = .ok env1) :
    env1.disruptorPlatforms.length = env.disruptorPlatforms.length := by
  rw [Environment.step] at h
  rcases hc : (env.preCoordinator dt).coordinator.step
      (env.preCoordinator dt).commsPlatforms with _ | ⟨row0, cs, coord⟩
  · rw [hc] at h; exact absurd h (by simp)
  · rw [hc] at h
    simp only [Except.ok.injEq] at h
    rw [postCoordinator_eq] at h
    simp only at h
    obtain ⟨hdlen0, -, -, -, -⟩ := preCoordinator_fields env dt
    have hdp : env1.disruptorPlatforms.length =
        (env.preCoordinator dt).disruptorPlatforms.length := by
      subst h
      by_cases hw : (env.preCoordinator dt).windowSize > 0
      · rw [if_pos hw]
        simp [List.length_mapIdx]
      · rw [if_neg hw]
        simp [List.length_mapIdx]
    rw [hdp, hdlen0]

end Environment

lemma c7hinit :
    Environment.init (allTrue 2) [c7p 1, c7p 2] [] 1 1 "rr" 1 = .ok c7e0 :=
  rfl

lemma c7ha1 : c7e0.applyAction (.txData 0 1 [2]) = .ok c7e1 := rfl

lemma c7hpre2 : c7e1.preCoordinator 10 = c7e2pre := by
  norm_num [Environment.preCoordinator, Environment.phaseKinematics,
    Environment.updatePlatformConnectivity, CommsPlatform.stepKin, kinUpdate,
    c7e1, c7e0, c7plat, c7pk1, allTrue, adjGet, Vec3.zero, c7e2pre,
    Environment.commsPlatformIDs]
  decide

lemma c7hpd2 : pruneDrop 10 1 c7pk1s = false := by
  simp only [pruneDrop, c7pk1s, Emission.emissionTime, Emission.header]
  norm_num

lemma c7hstep2 : c7e1.step 10 [] = .ok c7e2 := by
  have hco : c7e2pre.coordinator.step c7e2pre.commsPlatforms =
      .ok ([some c7pk1b],
        [c7plat 1 10 1 [] [] 2, c7plat 2 10 1 [] [] 1],
        c7e2pre.coordinator) := by rfl
  have hpost : c7e2pre.postCoordinator [some c7pk1b]
      [c7plat 1 10 1 [] [] 2, c7plat 2 10 1 [] [] 1]
      c7e2pre.coordinator [] =
      { c7e2 with
        trafficTx := pruneMatrix 10 1 [[[], [c7pk1s]], [[], []]],
        trafficRx := pruneMatrix 10 1 [[[], [c7pk1s]], [[], []]] } := by rfl
  have hprune : pruneMatrix 10 1 [[[], [c7pk1s]], [[], []]] =
      [[[], [c7pk1s]], [[], []]] := by
    simp [pruneMatrix, pruneList, List.dropWhile, c7hpd2]
  rw [Environment.step, c7hpre2, hco]
  simp only []
  rw [hpost, hprune]
  rfl

lemma c7ha3 : c7e2.applyAction (.txData 0 2 [2]) = .ok c7e3 := rfl

lemma c7hpre4 : c7e3.preCoordinator (-9) = c7e4pre := by
  norm_num [Environment.preCoordinator, Environment.phaseKinematics,
    Environment.updatePlatformConnectivity, CommsPlatform.stepKin, kinUpdate,
    c7e3, c7e2, c7plat, c7pk2, allTrue, adjGet, Vec3.zero, c7e4pre,
    Environment.commsPlatformIDs]
  decide

lemma c7hpd4 : pruneDrop 1 1 c7pk1s = false := by
  simp only [pruneDrop, c7pk1s, Emission.emissionTime, Emission.header]
  norm_num

lemma c7hstep4 : c7e3.step (-9) [] = .ok c7e4 := by
  have hco : c7e4pre.coordinator.step c7e4pre.commsPlatforms =
      .ok ([some c7pk2b],
        [c7plat 1 1 2 [] [] 3, c7plat 2 1 2 [] [1] 1],
        c7e4pre.coordinator) := by rfl
  have hpost : c7e4pre.postCoordinator [some c7pk2b]
      [c7plat 1 1 2 [] [] 3, c7plat 2 1 2 [] [1] 1]
      c7e4pre.coordinator [] =
      { c7e4 with
        trafficTx := pruneMatrix 1 1 [[[], [c7pk1s, c7pk2s]], [[], []]],
        trafficRx := pruneMatrix 1 1 [[[], [c7pk1s, c7pk2s]], [[], []]] } := by
    rfl
  have hprune : pruneMatrix 1 1 [[[], [c7pk1s, c7pk2s]], [[], []]] =
      [[[], [c7pk1s, c7pk2s]], [[], []]] := by
    simp [pruneMatrix, pruneList, List.dropWhile, c7hpd4]
  rw [Environment.step, c7hpre4, hco]
  simp only []
  rw [hpost, hprune]
  rfl

lemma c7hpre5 : c7e4.preCoordinator 9 = c7e5pre := by
  norm_num [Environment.preCoordinator, Environment.phaseKinematics,
    Environment.updatePlatformConnectivity, CommsPlatform.stepKin, kinUpdate,
    c7e4, c7plat, allTrue, adjGet, Vec3.zero, c7e5pre,
    Environment.commsPlatformIDs]
  decide

lemma c7hstep5 : c7e4.step 9 [] = .ok c7e5 := by
  have hco : c7e5pre.coordinator.step c7e5pre.commsPlatforms =
      .ok ([none],
        [c7plat 1 10 3 [] [] 3, c7plat 2 10 3 [] [1, 2] 1],
        c7e5pre.coordinator) := by rfl
  have hpost : c7e5pre.postCoordinator [none]
      [c7plat 1 10 3 [] [] 3, c7plat 2 10 3 [] [1, 2] 1]
      c7e5pre.coordinator [] =
      { c7e5 with
        trafficTx := pruneMatrix 10 1 [[[], [c7pk1s, c7pk2s]], [[], []]],
        trafficRx := pruneMatrix 10 1 [[[], [c7pk1s, c7pk2s]], [[], []]] } := by
    rfl
  have hprune : pruneMatrix 10 1 [[[], [c7pk1s, c7pk2s]], [[], []]] =
      [[[], [c7pk1s, c7pk2s]], [[], []]] := by
    simp [pruneMatrix, pruneList, List.dropWhile, c7hpd2]
  rw [Environment.step, c7hpre5, hco]
  simp only []
  rw [hpost, hprune]
  rfl

/-! ### Claim theorems -/

/-- C1: with 3 comms platforms {1,2,3}, an all-true adjacency matrix, no
disruptors, B=10 frequency bins, round-robin MAC, sliding window 0, and
the default `doAck`, if platform 1 calls `txData(0.7, [2,3])` before the
first environment step, then after one `step(0.25)` platform 2 and
platform 3 each receive 0.7 from `rxData()` and platform 1 receives
nothing. -/
theorem C1_simple_delivery :
    scenario1Final.map (fun env =>
      (((env.commsPlatforms.getD 1 default).rxData).1,
       ((env.commsPlatforms.getD 2 default).rxData).1,
       ((env.commsPlatforms.getD 0 default).rxData).1))
    = .ok (some (7/10), some (7/10), none) := by rfl

/-- C4 counterexample: the claim says a MAC-specific dimensional mismatch
(TDMA with B=2, FDMA with B=1 and 2 platforms) or an unrecognized MAC name
aborts construction, but `Environment` construction succeeds in all three
cases: the validation failure is not raised at construction time. -/
theorem C4_counterexample :
    scenario4TDMA.isOk = true ∧ scenario4FDMA.isOk = true ∧
    scenario4Unknown.isOk = true := ⟨rfl, rfl, rfl⟩

/-- C4 (amended): constructing the system with a MAC-specific dimensional
mismatch (TDMA with `B ≠ 1`, FDMA with `B <` number of platforms) or an
unrecognized MAC name succeeds; the structured validation failure
(`ValueError`) is instead raised by the first call to `step`. -/
theorem C4_mac_errors_at_first_step
    {adj : List (List Bool)} {cs : List CommsPlatform}
    {ds : List DisruptorPlatform} {B delay : Nat} {mac : String} {window : ℚ}
    {env : Environment}
    (hinit : Environment.init adj cs ds B delay mac window = .ok env)
    (hbad : (mac = "tdma" ∧ B ≠ 1) ∨ (mac = "fdma" ∧ B < cs.length) ∨
      (mac ≠ "rr" ∧ mac ≠ "tdma" ∧ mac ≠ "fdma"))
    (dt : ℚ) (samples : List (List Nat)) :
    ∃ msg, env.step dt samples = .error msg := by
  obtain ⟨hcoord, hlen, -⟩ := Environment.init_ok_inv hinit
  simp only [Environment.step, Environment.preCoordinator_coordinator, hcoord]
  rcases hbad with ⟨hmac, hB⟩ | ⟨hmac, hB⟩ | ⟨h1, h2, h3⟩
  · subst hmac
    refine ⟨"When using TDMA, only one frequency bin can exist.", ?_⟩
    simp [CommsCoordinator.step, CommsCoordinator.stepTDMA, hB]
  · subst hmac
    refine ⟨"When using FDMA, the number of frequency bins must be at least the number of platforms.", ?_⟩
    have hlen2 : (env.preCoordinator dt).commsPlatforms.length = cs.length := by
      rw [Environment.preCoordinator_commsPlatforms_length, hlen]
    simp [CommsCoordinator.step, CommsCoordinator.stepFDMA, hlen2, hB]
  · refine ⟨"Invalid medium access control method", ?_⟩
    simp [CommsCoordinator.step, h1, h2, h3]

/-- Witness for C4 (amended): the TDMA-with-two-bins environment of
`scenario4TDMA` is constructed successfully and its first `step` raises. -/
theorem C4_mac_errors_at_first_step_witness :
    ∃ msg, (scenario4TDMA.toOption.getD default).step (1/4) [] = .error msg := by
  have h : Environment.init (allTrue 2) [mkCommsPlatform 1, mkCommsPlatform 2]
      [] 2 1 "tdma" 0 = .ok (scenario4TDMA.toOption.getD default) := by rfl
  exact C4_mac_errors_at_first_step h (Or.inl ⟨rfl, by decide⟩) (1/4) []

/-- C3: in `putData`, a batch containing any `DisruptionToken` leaves both
the receive and transmit queues unchanged (the whole batch is discarded);
otherwise the receive queue gains exactly the payloads of the plain
packets that fit (acknowledgement packets never reach it), and the
transmit queue gains only the acknowledgements for the enqueued packets. -/
theorem C3_disruption_batch_kill (p : CommsPlatform) (batch : List Emission) :
    (p.putData batch).rxQueue =
      (if batch.any Emission.isToken then p.rxQueue
       else p.rxQueue ++ ((plainPackets batch).map Emission.payload).take
         (p.maxSize - p.rxQueue.length)) ∧
    (p.putData batch).txQueue =
      (if batch.any Emission.isToken then p.txQueue
       else p.txQueue ++ (if p.doAck then
         (acksFor p.id p.elapsedTime p.currentMsgID
           ((plainPackets batch).take (p.maxSize - p.rxQueue.length))).take
             (p.maxSize - p.txQueue.length)
         else [])) := by
  by_cases htok : batch.any Emission.isToken
  · simp [CommsPlatform.putData, htok]
  · have hspec := CommsPlatform.putDataLoop_spec batch p
    simp only [Bool.not_eq_true] at htok
    simp [CommsPlatform.putData, htok, hspec.1, hspec.2.2]

/-- C5: under every MAC policy, one coordinator step removes at most one
packet from each platform's transmit queue, and every removed packet is
placed into some bin of the returned vector (decorated with its bin index
and source position); in particular, under round robin with 4 platforms
each holding one pending packet and B=2, exactly 2 packets enter the bins
and the other 2 remain at the heads of their transmit queues. -/
theorem C5_single_drain_per_step :
    (∀ (c : CommsCoordinator) (ps : List CommsPlatform)
      (row : List (Option Emission)) (ps' : List CommsPlatform)
      (c' : CommsCoordinator), c.step ps = .ok (row, ps', c') →
      ps'.length = ps.length ∧
      ∀ i, i < ps.length →
        ((ps'.getD i default).txQueue = (ps.getD i default).txQueue ∨
         ∃ e, (ps.getD i default).txQueue = e :: (ps'.getD i default).txQueue ∧
           ∃ b, b < row.length ∧ ∃ pos,
             row.getD b none = some (e.setBinPos b pos))) ∧
    ((c5coordinator.step c5platforms).map (fun r =>
        (r.1.countP (fun cell => cell.isSome),
         r.2.1.map (fun p => p.txQueue))) =
      .ok (2, [[], [], (c5platforms.getD 2 default).txQueue,
               (c5platforms.getD 3 default).txQueue])) :=
  ⟨fun c ps row ps' c' h => CommsCoordinator.step_single_drain c ps row ps' c' h,
   by rfl⟩

/-- Witness for C5: the round-robin scenario of `c5platforms` /
`c5coordinator` discharges the `step = ok` hypothesis of the general
single-drain statement. -/
theorem C5_single_drain_per_step_witness :
    c5coordinator.step c5platforms = .ok c5result ∧
    (c5result.2.1.length = c5platforms.length ∧
      ∀ i, i < c5platforms.length →
        ((c5result.2.1.getD i default).txQueue =
            (c5platforms.getD i default).txQueue ∨
         ∃ e, (c5platforms.getD i default).txQueue =
             e :: (c5result.2.1.getD i default).txQueue ∧
           ∃ b, b < c5result.1.length ∧ ∃ pos,
             c5result.1.getD b none = some (e.setBinPos b pos))) :=
  ⟨by rfl, C5_single_drain_per_step.1 c5coordinator c5platforms
    c5result.1 c5result.2.1 c5result.2.2 (by rfl)⟩

/-- C6 (amended): during the fan-out phase, a comms-sourced packet `P`
occupying exactly one bin of the grid is appended to `tx_log[s][d]` once
per occurrence of comms id `d` in its destination list — exactly once when
the destination list contains that id exactly once, but once per duplicate
occurrence in general. -/
theorem C6_txlog_once_per_occurrence (adj : List (List Bool)) (cIDs dIDs : List Nat) (g : Grid)
    (st : FanState) (P : Emission) (s d : Nat)
    (hshape : TrafficShape st.trafficTx cIDs.length)
    (hlen : st.txData.length = cIDs.length)
    (hnodup : cIDs.Nodup)
    (hty : P.sourceType = 0)
    (hsrc : cIDs.indexOf? P.sourceID = some s)
    (hd : d < cIDs.length)
    (honce : (gridEmissions g).count P = 1) :
    (get2 (fanGrid adj cIDs dIDs g st).trafficTx s d).count P =
      (get2 st.trafficTx s d).count P + P.destID.count (cIDs.getD d 0) := by
  have hs : s < cIDs.length := (indexOf?_some_facts hsrc).1
  rw [fanGrid_eq_foldl]
  obtain ⟨-, -, h3, -⟩ := fanGrid_spec adj cIDs dIDs (gridEmissions g) st hshape hlen
  rw [h3 s d hs hd, List.count_append]
  rw [count_flatMap_self P (fun e => contribTx cIDs e s d)
    (fun e y hy => contribTx_self cIDs e s d y hy), honce, one_mul]
  rw [contribTx_length cIDs P s d hty hsrc]
  have hcnt : P.destID.countP (fun x => cIDs.indexOf? x == some d) =
      P.destID.countP (fun x => x == cIDs.getD d 0) := by
    refine List.countP_congr ?_
    intro x hx
    simp only [beq_iff_eq]
    exact indexOf?_eq_some_iff_of_nodup hnodup hd x
  rw [hcnt]
  rfl

/-- Witness for C6 (amended): a two-platform configuration with a packet
naming destination id 2 twice; its log entry count grows by exactly
`destID.count 2 = 2`. -/
theorem C6_txlog_once_per_occurrence_witness :
    (TrafficShape (List.replicate 2 (List.replicate 2 [])) ([1, 2] : List Nat).length ∧
     (List.replicate 2 ([] : List Emission)).length = ([1, 2] : List Nat).length ∧
     ([1, 2] : List Nat).Nodup ∧
     (Emission.packet ⟨1, [2, 2], 0, none, 0, none⟩ (7/10) 1).sourceType = 0 ∧
     ([1, 2] : List Nat).indexOf?
       (Emission.packet ⟨1, [2, 2], 0, none, 0, none⟩ (7/10) 1).sourceID = some 0 ∧
     1 < ([1, 2] : List Nat).length ∧
     (gridEmissions [[some (Emission.packet ⟨1, [2, 2], 0, none, 0, none⟩ (7/10) 1)]]).count
       (Emission.packet ⟨1, [2, 2], 0, none, 0, none⟩ (7/10) 1) = 1) ∧
    (get2 (fanGrid (allTrue 2) [1, 2] []
        [[some (Emission.packet ⟨1, [2, 2], 0, none, 0, none⟩ (7/10) 1)]]
        ⟨List.replicate 2 [], List.replicate 2 (List.replicate 2 [])⟩).trafficTx
        0 1).count (Emission.packet ⟨1, [2, 2], 0, none, 0, none⟩ (7/10) 1) =
      (get2 (List.replicate 2 (List.replicate 2 [])) 0 1).count
        (Emission.packet ⟨1, [2, 2], 0, none, 0, none⟩ (7/10) 1) +
        (Emission.packet ⟨1, [2, 2], 0, none, 0, none⟩ (7/10) 1).destID.count
          (([1, 2] : List Nat).getD 1 0) :=
  ⟨⟨by decide, by decide, by decide, by rfl, by rfl, by decide,
    by simp [gridEmissions]⟩,
   C6_txlog_once_per_occurrence (allTrue 2) [1, 2] []
     [[some (Emission.packet ⟨1, [2, 2], 0, none, 0, none⟩ (7/10) 1)]]
     ⟨List.replicate 2 [], List.replicate 2 (List.replicate 2 [])⟩
     (Emission.packet ⟨1, [2, 2], 0, none, 0, none⟩ (7/10) 1) 0 1
     (by decide) (by decide) (by decide) (by rfl) (by rfl) (by decide)
     (by simp [gridEmissions])⟩

/-- C6 counterexample: the claim as stated says a packet routed to a known
comms destination is logged exactly once "for any contents of P's dest_ids
list"; with the duplicate destination list `[2, 2]` the single packet is
appended to `tx_log[0][1]` twice in one step. -/
theorem C6_counterexample :
    c6final.map (fun env => (get2 env.trafficTx 0 1).length) = .ok 2 := by rfl

/-- C8: for a disruptor platform with the constructor invariants
(`maxTokens ≥ 0`, `tokensRemaining ≥ 0`, `B ≥ 1`), after its per-step
update: the budget is reset to `maxTokens` exactly when the (incremented)
elapsed step count is a multiple of `stepsPerEpoch` — i.e. before
`getDisruptions` runs for that step —, the budget stays non-negative, and
`getDisruptions` places exactly `min(tokensRemaining, 1)` tokens,
decrements the budget by exactly that number, and leaves it
non-negative. -/
theorem C8_token_budget_and_epoch_reset (d : DisruptorPlatform)
    (hmax : 0 ≤ d.numMaxTokens) (hrem : 0 ≤ d.numTokensRemaining)
    (hB : 1 ≤ d.numFrequencyBins) (dt : ℚ) (sample : List Nat)
    (hs : (d.step dt).ValidSample sample) :
    ((d.step dt).elapsedTimeSteps % (d.step dt).numTimeStepsPerEpoch = 0 →
      (d.step dt).numTokensRemaining = d.numMaxTokens) ∧
    0 ≤ (d.step dt).numTokensRemaining ∧
    (((((d.step dt).getDisruptions sample).1.countP (fun c => c.isSome)) : ℤ) =
      min (d.step dt).numTokensRemaining 1) ∧
    ((((d.step dt).getDisruptions sample).2).numTokensRemaining =
      (d.step dt).numTokensRemaining - min (d.step dt).numTokensRemaining 1) ∧
    0 ≤ ((((d.step dt).getDisruptions sample).2).numTokensRemaining) := by
  set d1 := d.step dt with hd1
  have hstep : (d1.numTokensRemaining = d.numMaxTokens ∧
      d1.elapsedTimeSteps % d1.numTimeStepsPerEpoch = 0) ∨
      (d1.numTokensRemaining = d.numTokensRemaining ∧
      d1.elapsedTimeSteps % d1.numTimeStepsPerEpoch ≠ 0) := by
    rw [hd1]
    simp only [DisruptorPlatform.step]
    by_cases hc : (d.elapsedTimeSteps + 1) % d.numTimeStepsPerEpoch = 0
    · left; simp [hc]
    · right; simp [hc]
  have hB1 : d1.numFrequencyBins = d.numFrequencyBins := by
    rw [hd1]; simp only [DisruptorPlatform.step]
    by_cases hc : (d.elapsedTimeSteps + 1) % d.numTimeStepsPerEpoch = 0 <;>
      simp [hc]
  have hrem1 : 0 ≤ d1.numTokensRemaining := by
    rcases hstep with ⟨h, -⟩ | ⟨h, -⟩ <;> omega
  have hn : d1.numTokensToUse = min d1.numTokensRemaining 1 := by
    unfold DisruptorPlatform.numTokensToUse
    have : ¬ ((d1.numFrequencyBins : ℤ) < min d1.numTokensRemaining 1) := by
      rw [hB1]; omega
    simp [this]
  obtain ⟨hslen, hsnd, hslt⟩ := hs
  refine ⟨?_, hrem1, ?_, ?_, ?_⟩
  · intro hmod
    rcases hstep with ⟨h, -⟩ | ⟨-, h⟩
    · exact h
    · exact absurd hmod h
  · rw [DisruptorPlatform.getDisruptions]
    simp only
    rw [placeTokens_count d1 sample hsnd hslt, hslen, hn]
  · rw [DisruptorPlatform.getDisruptions]
    simp only
    rw [hn]
  · rw [DisruptorPlatform.getDisruptions]
    simp only
    rw [hn]
    omega

/-- Witness for C8: the constructor-built disruptor `c8disruptor`
(`maxTokens = 4`, `B = 10`, `stepsPerEpoch = 10`) stepped once, with the
single-bin sample `[0]`. -/
theorem C8_token_budget_and_epoch_reset_witness :
    ((0 : ℤ) ≤ c8disruptor.numMaxTokens ∧
     (0 : ℤ) ≤ c8disruptor.numTokensRemaining ∧
     1 ≤ c8disruptor.numFrequencyBins ∧
     (c8disruptor.step (1/4)).ValidSample [0]) ∧
    (((c8disruptor.step (1/4)).elapsedTimeSteps %
        (c8disruptor.step (1/4)).numTimeStepsPerEpoch = 0 →
      (c8disruptor.step (1/4)).numTokensRemaining = c8disruptor.numMaxTokens) ∧
    0 ≤ (c8disruptor.step (1/4)).numTokensRemaining ∧
    (((((c8disruptor.step (1/4)).getDisruptions [0]).1.countP
        (fun c => c.isSome)) : ℤ) =
      min (c8disruptor.step (1/4)).numTokensRemaining 1) ∧
    ((((c8disruptor.step (1/4)).getDisruptions [0]).2).numTokensRemaining =
      (c8disruptor.step (1/4)).numTokensRemaining -
        min (c8disruptor.step (1/4)).numTokensRemaining 1) ∧
    0 ≤ ((((c8disruptor.step (1/4)).getDisruptions [0]).2).numTokensRemaining)) :=
  ⟨⟨by decide, by decide, by decide, by decide⟩,
   C8_token_budget_and_epoch_reset c8disruptor (by decide) (by decide)
     (by decide) (1/4) [0] (by decide)⟩

/-- C10: in `putData` with no `DisruptionToken` in the batch, a packet
that arrives while the receive queue is full is dropped without
generating an acknowledgement and without consuming a message id:
the message-id counter advances exactly once per enqueued packet, and the
transmit queue gains exactly the acknowledgements for the packets whose
payload was actually enqueued. -/
theorem C10_no_ack_for_dropped_packet (p : CommsPlatform)
    (batch : List Emission) (hnotok : batch.any Emission.isToken = false) :
    (p.putData batch).currentMsgID =
      p.currentMsgID + (if p.doAck then
        ((plainPackets batch).take (p.maxSize - p.rxQueue.length)).length
        else 0) ∧
    (p.putData batch).txQueue =
      p.txQueue ++ (if p.doAck then
        (acksFor p.id p.elapsedTime p.currentMsgID
          ((plainPackets batch).take (p.maxSize - p.rxQueue.length))).take
            (p.maxSize - p.txQueue.length)
        else []) := by
  have hspec := CommsPlatform.putDataLoop_spec batch p
  simp [CommsPlatform.putData, hnotok, hspec.2.1, hspec.2.2]

/-- Witness for C10: the single packet of `c10batch` arrives at the full
receive queue of `c10platform`; it is dropped, no acknowledgement is
generated, and no message id is consumed. -/
theorem C10_no_ack_for_dropped_packet_witness :
    (c10batch.any Emission.isToken = false) ∧
    ((c10platform.putData c10batch).currentMsgID =
      c10platform.currentMsgID + (if c10platform.doAck then
        ((plainPackets c10batch).take
          (c10platform.maxSize - c10platform.rxQueue.length)).length
        else 0) ∧
    (c10platform.putData c10batch).txQueue =
      c10platform.txQueue ++ (if c10platform.doAck then
        (acksFor c10platform.id c10platform.elapsedTime
          c10platform.currentMsgID
          ((plainPackets c10batch).take
            (c10platform.maxSize - c10platform.rxQueue.length))).take
              (c10platform.maxSize - c10platform.txQueue.length)
        else [])) :=
  ⟨by rfl, C10_no_ack_for_dropped_packet c10platform c10batch (by rfl)⟩

/-- C9: entry `(s, d)` of `trafficStatistics` is `|rx_log[s][d]| /
|tx_log[s][d]|` when `tx_log[s][d]` is non-empty and `0.0` otherwise; and
in every run with no disruptor platforms and an all-true adjacency matrix
(kept all-true by any adjacency update in the run), every entry with at
least one logged transmission equals `1.0`. -/
theorem C9_statistics_ratio :
    (∀ (env : Environment) (s d : Nat),
        s < env.numCommsPlatforms → d < env.numCommsPlatforms →
        (env.trafficStatistics.getD s []).getD d 0 =
          (if (get2 env.trafficTx s d).length ≠ 0 then
            ((get2 env.trafficRx s d).length : ℚ) /
              ((get2 env.trafficTx s d).length : ℚ)
           else 0)) ∧
    (∀ (cps : List CommsPlatform) (B delay : Nat) (mac : String) (w : ℚ)
        (acts : List Action) (env0 envN : Environment),
        Environment.init (allTrue cps.length) cps [] B delay mac w =
          .ok env0 →
        acts.all (benignAdj cps.length) = true →
        env0.run acts = .ok envN →
        ∀ s d, s < envN.numCommsPlatforms → d < envN.numCommsPlatforms →
          (get2 envN.trafficTx s d).length ≠ 0 →
          (envN.trafficStatistics.getD s []).getD d 0 = 1) := by
  constructor
  · exact fun env s d hs hd => trafficStatistics_entry env s d hs hd
  · intro cps B delay mac w acts env0 envN hinit hall hrun s d hs hd hne
    obtain ⟨-, hlen, hdlen, hadj, -, htx, hrx, -⟩ :=
      Environment.init_ok_inv hinit
    have hC0 : env0.numCommsPlatforms = cps.length := hlen
    have hInv0 : NoDisruptorInvariant env0 := by
      refine ⟨List.length_eq_zero.mp (by rw [hdlen]; rfl), ?_, ?_, ?_⟩
      · rw [hadj, hC0]
      · rw [htx, hC0]
        exact TrafficShape.replicate cps.length
      · rw [htx, hrx]
    obtain ⟨⟨-, -, -, hRxTx⟩, -⟩ :=
      Environment.run_noDisruptors_inv acts env0 envN hInv0
        (by rw [hC0]; exact hall) hrun
    rw [trafficStatistics_entry envN s d hs hd, if_pos hne, hRxTx]
    exact div_self (by exact_mod_cast hne)

/-- Witness for C9: in the concrete three-platform no-disruptor run
`c9acts` from `c9env0`, platform 1's packet to platform 2 is logged and
the statistics entry `(0, 1)` evaluates to `1`. -/
theorem C9_statistics_ratio_witness :
    (c9final.trafficStatistics.getD 0 []).getD 1 0 = 1 :=
  C9_statistics_ratio.2
    [mkCommsPlatform 1, mkCommsPlatform 2, mkCommsPlatform 3] 10 1 "rr" 0
    c9acts c9env0 c9final (by rfl) (by rfl) (by rfl) 0 1
    (by decide) (by decide) (by decide)

/-- C7 counterexample: with `window_size = 1 > 0`, a run whose `step`
amounts are `10`, `-9`, `9` (the code accepts any float `deltaT`, with no
sign validation) ends with `elapsed_time = 10` while `tx_log[0][1]` still
holds an entry stamped at time 1: `elapsed_time - emission_time = 9 > 1`,
because head-only pruning stops at the newer head stamped at time 10. -/
theorem C7_counterexample :
    ∃ env0 envBad : Environment,
      Environment.init (allTrue 2) [c7p 1, c7p 2] [] 1 1 "rr" 1 = .ok env0 ∧
      env0.run [.txData 0 1 [2], .step 10 [], .txData 0 2 [2],
        .step (-9) [], .step 9 []] = .ok envBad ∧
      0 < envBad.windowSize ∧
      ∃ e ∈ get2 envBad.trafficTx 0 1, ∃ t, e.emissionTime = some t ∧
        envBad.windowSize < envBad.elapsedTime - t := by
  have happly2 : c7e1.applyAction (.step 10 []) = .ok c7e2 := c7hstep2
  have happly4 : c7e3.applyAction (.step (-9) []) = .ok c7e4 := c7hstep4
  have happly5 : c7e4.applyAction (.step 9 []) = .ok c7e5 := c7hstep5
  have hrun : c7e0.run [.txData 0 1 [2], .step 10 [], .txData 0 2 [2],
      .step (-9) [], .step 9 []] = .ok c7e5 := by
    rw [Environment.run, c7ha1]
    simp only []
    rw [Environment.run, happly2]
    simp only []
    rw [Environment.run, c7ha3]
    simp only []
    rw [Environment.run, happly4]
    simp only []
    rw [Environment.run, happly5]
    simp only []
    rw [Environment.run]
  refine ⟨c7e0, c7e5, c7hinit, hrun, ?_, c7pk2s, ?_, 1, rfl, ?_⟩
  · rw [show c7e5.windowSize = 1 from rfl]
    norm_num
  · rw [show get2 c7e5.trafficTx 0 1 = [c7pk1s, c7pk2s] from rfl]
    exact List.mem_cons_of_mem _ (List.mem_cons_self _ _)
  · rw [show c7e5.windowSize = 1 from rfl,
      show c7e5.elapsedTime = 10 from rfl]
    norm_num

/-- C7 (amended): in every run from a successful construction in which
every `step` advances time by a nonnegative amount, when `window_size > 0`
every entry remaining in any `tx_log[s][d]` or `rx_log[s][d]` at the end
of the run satisfies `elapsed_time - emission_time <= window_size`. -/
theorem C7_sliding_window_bound
    (adj : List (List Bool)) (cps : List CommsPlatform)
    (dps : List DisruptorPlatform) (B delay : Nat) (mac : String) (w : ℚ)
    (acts : List Action) (env0 envN : Environment)
    (hinit : Environment.init adj cps dps B delay mac w = .ok env0)
    (hsteps : acts.all nonnegSteps = true)
    (hrun : env0.run acts = .ok envN)
    (hw : 0 < envN.windowSize) :
    ∀ s d e, (e ∈ get2 envN.trafficTx s d ∨ e ∈ get2 envN.trafficRx s d) →
      ∃ t, e.emissionTime = some t ∧
        envN.elapsedTime - t ≤ envN.windowSize := by
  obtain ⟨-, hlen, -, -, -, htx, hrx, -⟩ := Environment.init_ok_inv hinit
  have hC0 : env0.numCommsPlatforms = cps.length := hlen
  have hInv0 : WindowInvariant env0 := by
    refine ⟨by rw [htx, hC0]; exact TrafficShape.replicate _,
      by rw [hrx, hC0]; exact TrafficShape.replicate _, ?_, ?_, ?_⟩
    · intro s d
      rw [htx, get2_replicate_nil]
      exact stampedSorted_nil _
    · intro s d
      rw [hrx, get2_replicate_nil]
      exact stampedSorted_nil _
    · intro _
      constructor
      · intro s d e he
        rw [htx, get2_replicate_nil] at he
        exact absurd he (List.not_mem_nil e)
      · intro s d e he
        rw [hrx, get2_replicate_nil] at he
        exact absurd he (List.not_mem_nil e)
  obtain ⟨⟨-, -, hOkTx, hOkRx, hWin⟩, -⟩ :=
    Environment.run_window_inv acts env0 envN hInv0 hsteps hrun
  obtain ⟨hWTx, hWRx⟩ := hWin hw
  intro s d e he
  rcases he with he | he
  · obtain ⟨t, ht, -⟩ := (hOkTx s d).1 e he
    refine ⟨t, ht, ?_⟩
    have := hWTx s d e he
    rw [ht] at this
    simpa using this
  · obtain ⟨t, ht, -⟩ := (hOkRx s d).1 e he
    refine ⟨t, ht, ?_⟩
    have := hWRx s d e he
    rw [ht] at this
    simpa using this

/-- Witness for C7 (amended): the bound applied to the concrete
two-platform run `c7wacts` with window size 1. -/
theorem C7_sliding_window_bound_witness :
    0 < c7wfinal.windowSize ∧
    ∀ e, (e ∈ get2 c7wfinal.trafficTx 0 1 ∨
        e ∈ get2 c7wfinal.trafficRx 0 1) →
      ∃ t, e.emissionTime = some t ∧
        c7wfinal.elapsedTime - t ≤ c7wfinal.windowSize := by
  have hwv : c7wfinal.windowSize = 1 := by rfl
  have hw : (0 : ℚ) < c7wfinal.windowSize := by rw [hwv]; norm_num
  exact ⟨hw, fun e he =>
    C7_sliding_window_bound (allTrue 2) [mkCommsPlatform 1, mkCommsPlatform 2]
      [] 10 1 "rr" 1 c7wacts c7wenv0 c7wfinal (by rfl) (by rfl) (by rfl) hw
      0 1 e he⟩

/-- C2 (amended): in every run whose last action is a `step`, each
disruptor's `observed_env` after that step is the per-disruptor filtered
copy (under the adjacency matrix current at that step) of the snapshot
`disruptor_delay` steps old: the grid recorded at the end of step
`t - delay` of the run, or the all-empty grid while `t <= delay`.  The
filter applies to every cell, a disruptor's own past emissions
included. -/
theorem C2_delayed_observation
    (adj0 : List (List Bool)) (cps : List CommsPlatform)
    (dps : List DisruptorPlatform) (B delay : Nat) (mac : String) (w : ℚ)
    (pre : List Action) (dt : ℚ) (samples : List (List Nat))
    (env0 envN : Environment) (hist : List Grid)
    (hinit : Environment.init adj0 cps dps B delay mac w = .ok env0)
    (hrun : env0.runH (pre ++ [.step dt samples]) = .ok (envN, hist))
    (k : Nat) (hk : k < envN.disruptorPlatforms.length) :
    (envN.disruptorPlatforms.getD k default).env =
      some (filterForDisruptor envN.adjMatrix envN.commsPlatformIDs
        envN.disruptorPlatformIDs k
        ((List.replicate delay (emptyGrid (1 + dps.length) B) ++
          hist.dropLast).getD hist.dropLast.length
          (emptyGrid (1 + dps.length) B))) := by
  obtain ⟨-, -, -, -, hdq, -, -, -, -, -, -, hd1, -⟩ :=
    Environment.init_ok_inv hinit
  set G0 : Grid := emptyGrid (1 + dps.length) B with hG0
  rw [Environment.runH_append] at hrun
  rcases h1 : env0.runH pre with _ | ⟨envMid, histPre⟩
  · rw [h1] at hrun; exact absurd hrun (by simp)
  · rw [h1] at hrun
    simp only [] at hrun
    rcases h2 : envMid.runH [.step dt samples] with _ | ⟨envL, histL⟩
    · rw [h2] at hrun; exact absurd hrun (by simp)
    · rw [h2] at hrun
      simp only [Except.ok.injEq, Prod.mk.injEq] at hrun
      obtain ⟨hNL, hhist⟩ := hrun
      rw [Environment.runH] at h2
      rcases h3 : envMid.applyAction (.step dt samples) with _ | envS
      · rw [h3] at h2; exact absurd h2 (by simp)
      · rw [h3] at h2
        simp only [Environment.runH, Except.ok.injEq, Prod.mk.injEq] at h2
        obtain ⟨hSL, hLdata⟩ := h2
        have hstep : envMid.step dt samples = .ok envN := by
          rw [← hNL, ← hSL]; exact h3
        have hkMid : k < envMid.disruptorPlatforms.length := by
          rw [← Environment.step_disruptor_length envMid envN dt samples hstep]
          exact hk
        have hq0 : env0.dataQueue =
            (List.replicate delay G0 ++ ([] : List Grid)).drop
              ([] : List Grid).length := by
          simpa [hG0] using hdq
        have hqMid := Environment.runH_queue_inv G0 delay hd1 pre env0 envMid
          [] histPre hq0 h1
        simp only [List.nil_append] at hqMid
        have hdrop : hist.dropLast = histPre := by
          rw [← hhist, ← hLdata]
          simp
        rw [Environment.step_observe envMid envN dt samples hstep k hkMid]
        have hgrid : envMid.dataQueue.headD
            (emptyGrid (1 + envMid.disruptorPlatforms.length)
              envMid.numFrequencyBins) =
            (List.replicate delay G0 ++ hist.dropLast).getD
              hist.dropLast.length G0 := by
          rw [hqMid, hdrop]
          exact drop_headD _ _ (by simp; omega) _ _
        rw [hgrid]

/-- C2 counterexample: with the adjacency diagonal entry of the disruptor
set to false, the snapshot delivered to the disruptor at step 2 has its
own step-1 token (source id 5, source type 1) filtered out: the claim that
a disruptor's own past emissions are never filtered out is false. -/
theorem C2_counterexample :
    Environment.init c2adj [mkCommsPlatform 1] [c2disruptor] 1 1 "rr" 0 =
      .ok c2e0 ∧
    c2e0.step 1 [[0]] = .ok c2e1 ∧
    c2e1.step 1 [] = .ok c2e2 ∧
    c2e1.dataQueue = [c2e1.data] ∧
    ((c2e1.data.getD 1 []).getD 0 none).map Emission.sourceID = some 5 ∧
    ((c2e1.data.getD 1 []).getD 0 none).map Emission.sourceType = some 1 ∧
    (((c2e2.disruptorPlatforms.getD 0 default).env.getD []).getD 1
      []).getD 0 none = none :=
  ⟨rfl, rfl, rfl, rfl, rfl, rfl, rfl⟩

/-- Witness for C2 (amended): the delayed-observation formula applied to
the concrete one-comms one-disruptor run of two steps. -/
theorem C2_delayed_observation_witness :
    (c2wrun.1.disruptorPlatforms.getD 0 default).env =
      some (filterForDisruptor c2wrun.1.adjMatrix c2wrun.1.commsPlatformIDs
        c2wrun.1.disruptorPlatformIDs 0
        ((List.replicate 1 (emptyGrid 2 1) ++ c2wrun.2.dropLast).getD
          c2wrun.2.dropLast.length (emptyGrid 2 1))) :=
  C2_delayed_observation c2adj [mkCommsPlatform 1] [c2disruptor] 1 1 "rr" 0
    [.step 1 [[0]]] 1 [] c2e0 c2wrun.1 c2wrun.2 (by rfl) (by rfl) 0
    (by decide)

end ACME
